import Mathlib

/-!
Verification development for the country-indicator ETL script (`etl.py`).

The script fetches a paginated World Bank indicator series, cleans a local
reference table of countries and the fetched indicator table, and left-joins
them on ISO3 code (preferred) or on a normalized country name (fallback).

We shallowly embed the data model and the operations the script uses:

* `Val` models a pandas cell: missing (`NaN`/`None`), a string, or a number
  (numbers as `Rat`; the script only compares and copies them).
* `Row` / `DataFrame` model a pandas frame as a column list plus rows of
  (column, value) pairs.
* Python string methods (`strip`, `lower`, `upper`) and the two regular
  expressions of `normalize_country_name` (`[^\w\s]` removal, `\s+`
  collapsing) are embedded over `List Char`, with `\w`/`\s` read as their
  ASCII core (the data the script handles is ASCII).
* pandas operations (`rename`, column assignment, `sort_values`, `dropna`,
  `groupby(...).first()`, `merge(..., how="left")`, `[[...]]` selection) are
  embedded one definition each; fallible column selection returns `Except`.
* The paginated fetch loop is embedded with explicit fuel over a `PyVal`
  JSON model, the HTTP layer abstracted as a function from page number to
  response.
-/

/-- A pandas cell value: missing (NaN/None), a string, or a number. -/
inductive Val where
  | na : Val
  | str : String → Val
  | num : Rat → Val
deriving DecidableEq, Repr

def Val.isNa : Val → Bool
  | .na => true
  | _ => false

/-- A row is an association list from column name to cell value. -/
abbrev Row := List (String × Val)

/-- A pandas DataFrame: ordered column names plus rows. -/
structure DataFrame where
  cols : List String
  rows : List Row
deriving DecidableEq, Repr

/-- Reading a cell (the first entry for the column, as pandas has unique
column labels here); a column absent from the row reads as missing. -/
def rowGet : Row → String → Val
  | [], _ => .na
  | (k, v) :: rest, c => if k = c then v else rowGet rest c

/-- Writing a cell: replace the entry for `c`, or append it. -/
def setCell (r : Row) (c : String) (v : Val) : Row :=
  if r.any (fun p => p.1 = c) then
    r.map (fun p => if p.1 = c then (c, v) else p)
  else r ++ [(c, v)]

/-- Column assignment `df[c] = f(row)` (adds the column if absent). -/
def setCol (df : DataFrame) (c : String) (f : Row → Val) : DataFrame :=
  ⟨if df.cols.contains c then df.cols else df.cols ++ [c],
   df.rows.map (fun r => setCell r c (f r))⟩

/-- pandas `df.empty`: true when either axis has length zero. -/
def dfEmpty (df : DataFrame) : Bool := df.rows.isEmpty || df.cols.isEmpty

/-- Python `str(x)` on a cell, as used by `astype(str)`: `str(nan) = "nan"`.
Python renders floats with a decimal point; the script never feeds numbers
to `astype(str)` paths that the claims exercise, so an integer-style
rendering suffices here. -/
def valToStr : Val → String
  | .na => "nan"
  | .str s => s
  | .num q => if q.den = 1 then toString q.num else toString q

/-! ### Python string helpers -/

/-- Python `\s` (ASCII core): the whitespace characters `str.strip` strips. -/
def pyIsSpace (c : Char) : Bool :=
  c = ' ' || c = '\t' || c = '\n' || c = '\r' || c = '\x0b' || c = '\x0c'

def pyStripChars (l : List Char) : List Char :=
  ((l.dropWhile pyIsSpace).reverse.dropWhile pyIsSpace).reverse

/-- Python `str.strip()`. -/
def pyStrip (s : String) : String := String.mk (pyStripChars s.data)

/-- Python `str.lower()` (ASCII). -/
def pyLower (s : String) : String := String.mk (s.data.map Char.toLower)

/-- Python `str.upper()` (ASCII). -/
def pyUpper (s : String) : String := String.mk (s.data.map Char.toUpper)

/-- Python `\w` (ASCII core): letters, digits, underscore. -/
def isWordChar (c : Char) : Bool := c.isAlphanum || c = '_'

/-- `re.sub(r"[^\w\s]", "", s)`: drop characters that are neither word
characters nor whitespace. -/
def stripPunctChars (l : List Char) : List Char :=
  l.filter (fun c => isWordChar c || pyIsSpace c)

/-- `re.sub(r"\s+", " ", s)`: replace each maximal whitespace run by one
space (including leading and trailing runs, which become a single space). -/
def spaceHead : List Char → Bool
  | [] => false
  | c :: _ => pyIsSpace c

def collapseChars : List Char → List Char
  | [] => []
  | c :: rest =>
    if pyIsSpace c then
      if spaceHead rest then collapseChars rest
      else ' ' :: collapseChars rest
    else c :: collapseChars rest

/-- The string pipeline of `normalize_country_name` before the alias lookup:
`str(x).strip().lower()`, then the two `re.sub` calls. -/
def pyNormStr (s : String) : String :=
  String.mk (collapseChars (stripPunctChars (pyLower (pyStrip s)).data))

/-- The fixed alias table of `normalize_country_name`, in source order. -/
def aliases : List (String × String) :=
  [("czech republic", "czechia"),
   ("laos", "lao pdr"),
   ("bahamas", "bahamas the"),
   ("cape verde", "cabo verde"),
   ("congo brazzaville", "congo rep"),
   ("congo drc", "congo dem rep"),
   ("eswatini", "swaziland"),
   ("gambia", "gambia the"),
   ("ivory coast", "cote divoire"),
   ("north korea", "korea dem peoples rep"),
   ("south korea", "korea rep"),
   ("vietnam", "viet nam"),
   ("russia", "russian federation"),
   ("usa", "united states of america"),
   ("united states", "united states of america")]

/-- `normalize_country_name` on a string argument:
normalize the spelling, then `aliases.get(s, s)`. -/
def nrm (s : String) : String :=
  let s1 := pyNormStr s
  (aliases.lookup s1).getD s1

/-- `normalize_country_name(x)`: missing values pass through unchanged;
anything else is stringified and normalized. -/
def normalize_country_name : Val → Val
  | .na => .na
  | v => .str (nrm (valToStr v))

/-! ### Column-name standardization -/

/-- One iteration of the loop in `standardize_colnames`: possibly extend the
mapping with column `c`. A synonym group only fires while its canonical name
is not yet among the mapping's values. -/
def scStep (mapping : List (String × String)) (c : String) : List (String × String) :=
  let cl := pyLower (pyStrip c)
  if (cl = "country" || cl = "country_name" || cl = "name" || cl = "countryname")
      && !((mapping.map Prod.snd).contains "country_name") then
    mapping ++ [(c, "country_name")]
  else if (cl = "region" || cl = "world_region")
      && !((mapping.map Prod.snd).contains "region") then
    mapping ++ [(c, "region")]
  else if (cl = "iso3" || cl = "iso_3" || cl = "iso code 3" || cl = "alpha-3"
        || cl = "iso3code" || cl = "countryiso3code")
      && !((mapping.map Prod.snd).contains "iso3") then
    mapping ++ [(c, "iso3")]
  else if (cl = "subregion" || cl = "sub_region")
      && !((mapping.map Prod.snd).contains "subregion") then
    mapping ++ [(c, "subregion")]
  else mapping

/-- `standardize_colnames(cols)`: fold the step over the columns, producing
the rename mapping as an association list. -/
def standardize_colnames (cols : List String) : List (String × String) :=
  cols.foldl scStep []

/-- pandas `df.rename(columns=m)`: rename columns (and row keys) through the
mapping; unmapped names are kept. -/
def renameCols (df : DataFrame) (m : List (String × String)) : DataFrame :=
  ⟨df.cols.map (fun c => (m.lookup c).getD c),
   df.rows.map (fun r => r.map (fun p => ((m.lookup p.1).getD p.1, p.2)))⟩

/-- `astype(str).str.upper().str.strip()` on one cell (the iso3 treatment). -/
def normIso3Cell (v : Val) : Val := .str (pyStrip (pyUpper (valToStr v)))

/-- `astype(str).str.strip()` on one cell (the country-name treatment). -/
def trimCell (v : Val) : Val := .str (pyStrip (valToStr v))

/-- `clean_countries_csv(df)`: rename recognized columns, uppercase/trim
`iso3` when present, trim the country name and derive `_country_norm` from
it; with no recognized name column `_country_norm` is set to missing. -/
def clean_countries_csv (df : DataFrame) : DataFrame :=
  if dfEmpty df then df
  else
    let mapping := standardize_colnames df.cols
    let df2 := renameCols df mapping
    let df2 :=
      if df2.cols.contains "iso3" then
        setCol df2 "iso3" (fun r => normIso3Cell (rowGet r "iso3"))
      else df2
    if df2.cols.contains "country_name" then
      let df3 := setCol df2 "country_name" (fun r => trimCell (rowGet r "country_name"))
      setCol df3 "_country_norm" (fun r => normalize_country_name (rowGet r "country_name"))
    else setCol df2 "_country_norm" (fun _ => .na)

/-! ### Sorting (`sort_values`), `dropna`, `groupby(...).first()` -/

/-- Three-way comparison from a linear order (used for the numeric sort
keys). -/
def linCmp {α : Type} [LinearOrder α] (a b : α) : Ordering :=
  if a < b then .lt else if b < a then .gt else .eq

/-- Code-point comparison of characters (Python compares strings by code
point). -/
def charCmp (a b : Char) : Ordering :=
  if a.toNat < b.toNat then .lt else if b.toNat < a.toNat then .gt else .eq

/-- Lexicographic code-point comparison of character lists. -/
def strCmpChars : List Char → List Char → Ordering
  | [], [] => .eq
  | [], _ :: _ => .lt
  | _ :: _, [] => .gt
  | a :: as, b :: bs =>
    match charCmp a b with
    | .eq => strCmpChars as bs
    | o => o

/-- Lexicographic comparison of strings, as Python orders them. -/
def strCmp (a b : String) : Ordering := strCmpChars a.data b.data

/-- One sort key of `sort_values`, with `asc` the `ascending` flag. Missing
values sort last regardless of direction (`na_position="last"`). pandas
raises on mixed string/number columns; our comparator totalizes that case
(numbers before strings) so sorting stays a function — the claims only sort
columns of a single kind. -/
def keyCmp (asc : Bool) : Val → Val → Ordering
  | .na, .na => .eq
  | .na, _ => .gt
  | _, .na => .lt
  | .num a, .num b => if asc then linCmp a b else linCmp b a
  | .str a, .str b => if asc then strCmp a b else strCmp b a
  | .num _, .str _ => if asc then .lt else .gt
  | .str _, .num _ => if asc then .gt else .lt

/-- Lexicographic row comparison over a list of (column, ascending) keys. -/
def rowCmp : List (String × Bool) → Row → Row → Ordering
  | [], _, _ => .eq
  | (c, asc) :: rest, a, b =>
    match keyCmp asc (rowGet a c) (rowGet b c) with
    | .eq => rowCmp rest a b
    | o => o

/-- The (total pre-)order used to sort rows. -/
def rowLe (ks : List (String × Bool)) (a b : Row) : Prop :=
  ¬ (rowCmp ks a b = Ordering.gt)

instance (ks : List (String × Bool)) : DecidableRel (rowLe ks) :=
  fun a b => instDecidableNot

/-- pandas `df.sort_values(keys, ascending=flags)`. pandas' default
quicksort leaves tie order unspecified; we fix it with a stable insertion
sort — no claim depends on tie order. -/
def sort_values (df : DataFrame) (ks : List (String × Bool)) : DataFrame :=
  ⟨df.cols, List.insertionSort (rowLe ks) df.rows⟩

/-- pandas `df.dropna(subset=cs)`. -/
def dropna (df : DataFrame) (cs : List String) : DataFrame :=
  ⟨df.cols, df.rows.filter (fun r => cs.all (fun c => !(rowGet r c).isNa))⟩

/-- First non-missing value of column `c` over `rows` (missing if none):
the per-column behaviour of `GroupBy.first()`. -/
def firstNonNa (rows : List Row) (c : String) : Val :=
  ((rows.map (fun r => rowGet r c)).find? (fun v => !v.isNa)).getD .na

/-- The distinct non-missing group keys, in ascending order (pandas
`groupby` sorts group keys and drops missing keys by default). -/
def groupKeys (rows : List Row) (key : String) : List Val :=
  (List.insertionSort (fun a b => ¬ (keyCmp true a b = Ordering.gt))
    ((rows.map (fun r => rowGet r key)).filter (fun v => !v.isNa))).dedup

/-- pandas `df.groupby(key, as_index=False).first()`: one output row per
distinct key; each remaining column holds the first non-missing value of
its group (`first` skips missing values per column, so the output row need
not coincide with any single input row). -/
def groupbyFirst (df : DataFrame) (key : String) : DataFrame :=
  let others := df.cols.filter (fun c => !(c == key))
  ⟨key :: others,
   (groupKeys df.rows key).map (fun g =>
     let grp := df.rows.filter (fun r => rowGet r key == g)
     (key, g) :: others.map (fun c => (c, firstNonNa grp c)))⟩

/-- `clean_worldbank_df(df)`: uppercase/trim `iso3`, trim `country_name`,
derive `_country_norm`, sort by (iso3 asc, year desc), drop rows with
missing `value`, keep the first row-fragment per iso3 group. -/
def clean_worldbank_df (df : DataFrame) : DataFrame :=
  if dfEmpty df then df
  else
    let out := setCol df "iso3" (fun r => normIso3Cell (rowGet r "iso3"))
    let out := setCol out "country_name" (fun r => trimCell (rowGet r "country_name"))
    let out := setCol out "_country_norm" (fun r => normalize_country_name (rowGet r "country_name"))
    let out := sort_values out [("iso3", true), ("year", false)]
    let out := dropna out ["value"]
    groupbyFirst out "iso3"

/-! ### Merge -/

/-- pandas `df[[c1, ..., cn]]`: column selection, `KeyError` when a column
is absent. -/
def selectCols (df : DataFrame) (cs : List String) : Except String DataFrame :=
  if cs.all (fun c => df.cols.contains c) then
    .ok ⟨cs, df.rows.map (fun r => cs.map (fun c => (c, rowGet r c)))⟩
  else .error "KeyError"

/-- Join-key match: equal and not missing (missing keys never match). -/
def valMatch (a b : Val) : Bool := !a.isNa && !b.isNa && a == b

/-- pandas `left.merge(right, on=key, how="left")`: every left row is kept,
once per matching right row, or once with missing fill when unmatched.
Overlapping non-key column names receive the `_x`/`_y` suffixes. -/
def mergeLeft (left right : DataFrame) (key : String) : Except String DataFrame :=
  if left.cols.contains key && right.cols.contains key then
    let overlap := left.cols.filter (fun c => !(c == key) && right.cols.contains c)
    let lren := fun (c : String) => if overlap.contains c then c ++ "_x" else c
    let rren := fun (c : String) => if overlap.contains c then c ++ "_y" else c
    let rOthers := right.cols.filter (fun c => !(c == key))
    .ok ⟨left.cols.map lren ++ rOthers.map rren,
      left.rows.flatMap (fun l =>
        let ms := right.rows.filter (fun r => valMatch (rowGet l key) (rowGet r key))
        let lrow := l.map (fun p => (lren p.1, p.2))
        if ms.isEmpty then [lrow ++ rOthers.map (fun c => (rren c, Val.na))]
        else ms.map (fun r => lrow ++ rOthers.map (fun c => (rren c, rowGet r c))))⟩
  else .error "KeyError"

/-- `merge_datasets(countries, wb)`: join on `iso3` when both sides expose
it, else fall back to `_country_norm`; either way only the key, `indicator`
and `value` columns of the indicator table are taken. The `wb[[...]]`
selection is evaluated before the merge, as in the source. -/
def merge_datasets (countries wb : DataFrame) : Except String DataFrame :=
  if countries.cols.contains "iso3" && wb.cols.contains "iso3" then
    match selectCols wb ["iso3", "indicator", "value"] with
    | .ok w => mergeLeft countries w "iso3"
    | .error e => .error e
  else
    match selectCols wb ["_country_norm", "indicator", "value"] with
    | .ok w => mergeLeft countries w "_country_norm"
    | .error e => .error e

instance {e a : Type} [DecidableEq e] [DecidableEq a] : DecidableEq (Except e a) :=
  fun x y =>
    match x, y with
    | .ok v, .ok w =>
      if h : v = w then isTrue (by rw [h]) else isFalse (by simp [h])
    | .error v, .error w =>
      if h : v = w then isTrue (by rw [h]) else isFalse (by simp [h])
    | .ok _, .error _ => isFalse (by simp)
    | .error _, .ok _ => isFalse (by simp)

/-! ### The paginated fetcher

The HTTP layer is abstracted as a function from page number to decoded JSON
response; `requests.get(...).json()` either yields such a value or aborts
the run, which is outside the loop being modelled. -/

/-- A decoded JSON value as the fetch loop sees it. -/
inductive PyVal where
  | pnull : PyVal
  | pnum : Rat → PyVal
  | pstr : String → PyVal
  | plist : List PyVal → PyVal
  | pdict : List (String × PyVal) → PyVal

/-- Python `d.get(k)` on a record: `None` when the key is absent. Records in
a well-formed response are JSON objects; a non-object record would raise
`AttributeError` in Python and is modelled as an absent key. -/
def pyDictGet (v : PyVal) (k : String) : PyVal :=
  match v with
  | .pdict kvs => (kvs.lookup k).getD .pnull
  | _ => .pnull

/-- `(r.get(outer) or {}).get(inner)`: `None` and the empty dict are falsy,
so a missing or empty nested object yields `None`. A truthy non-dict would
raise in Python; modelled as `None`. -/
def nestedGet (r : PyVal) (outer inner : String) : PyVal :=
  match pyDictGet r outer with
  | .pdict kvs => (kvs.lookup inner).getD .pnull
  | _ => .pnull

/-- A JSON leaf as a pandas cell. Nested containers do not occur in the leaf
fields of this API shape; they land as missing. -/
def pyToVal : PyVal → Val
  | .pnull => .na
  | .pnum q => .num q
  | .pstr s => .str s
  | .plist _ => .na
  | .pdict _ => .na

/-- The flattened record built inside the fetch loop. -/
def flattenRecord (r : PyVal) : Row :=
  [("country_name", pyToVal (nestedGet r "country" "value")),
   ("iso3", pyToVal (pyDictGet r "countryiso3code")),
   ("year", pyToVal (pyDictGet r "date")),
   ("indicator", pyToVal (nestedGet r "indicator" "id")),
   ("value", pyToVal (pyDictGet r "value"))]

/-- `meta.get("pages", 1)`. A non-dict metadata element raises in Python;
modelled as the default. -/
def pagesOf (meta : PyVal) : PyVal :=
  match meta with
  | .pdict kvs => (kvs.lookup "pages").getD (.pnum 1)
  | _ => .pnum 1

/-- The loop guard `page >= meta.get("pages", 1)`. Comparing an `int` with a
non-numeric value raises in Python; modelled as stopping. -/
def pageDone (page : Nat) (pages : PyVal) : Bool :=
  match pages with
  | .pnum q => decide (q ≤ (page : Rat))
  | _ => true

/-- `data[1]` as the iterable of records (a non-list there raises on
iteration in Python; modelled as no records). -/
def recordsOf (v : PyVal) : List PyVal :=
  match v with
  | .plist xs => xs
  | _ => []

/-- The `while True` pagination loop, with explicit fuel standing for the
finitely many iterations any terminating run performs. The loop breaks on a
response that is not a list of at least two elements, and after the page
whose number reaches the advertised page count. -/
def extractLoop (api : Nat → PyVal) :
    Nat → Nat → List PyVal → List Row → List PyVal × List Row
  | 0, _, accFull, accFlat => (accFull, accFlat)
  | fuel + 1, page, accFull, accFlat =>
    match api page with
    | .plist l =>
      if l.length < 2 then (accFull, accFlat)
      else
        let meta := l.headD .pnull
        let records := recordsOf (l.getD 1 .pnull)
        let accFull2 := accFull ++ records
        let accFlat2 := accFlat ++ records.map flattenRecord
        if pageDone page (pagesOf meta) then (accFull2, accFlat2)
        else extractLoop api fuel (page + 1) accFull2 accFlat2
    | _ => (accFull, accFlat)

/-- Integer value of a digit run. -/
def digitsToNat (l : List Char) : Nat :=
  l.foldl (fun n c => n * 10 + (c.toNat - 48)) 0

/-- The numeric parser behind `pd.to_numeric`: optional sign, decimal
digits, optional fractional part, surrounding whitespace tolerated.
(Exponent forms are not needed by any claim: what matters is that failure
yields `none`, not an error.) -/
def parseDecimal (s : String) : Option Rat :=
  let l := pyStripChars s.data
  let sl : Int × List Char :=
    match l with
    | '-' :: rest => (-1, rest)
    | '+' :: rest => (1, rest)
    | _ => (1, l)
  let intPart := sl.2.takeWhile Char.isDigit
  let rest := sl.2.dropWhile Char.isDigit
  match rest with
  | [] =>
    if intPart.isEmpty then none
    else some (mkRat (sl.1 * Int.ofNat (digitsToNat intPart)) 1)
  | '.' :: frac =>
    if frac.all Char.isDigit && !(intPart.isEmpty && frac.isEmpty) then
      some (mkRat
        (sl.1 * Int.ofNat (digitsToNat intPart * 10 ^ frac.length + digitsToNat frac))
        (10 ^ frac.length))
    else none
  | _ => none

/-- `pd.to_numeric(x, errors="coerce")` on one cell: numbers pass through,
parseable strings become numbers, anything else becomes missing. -/
def to_numeric : Val → Val
  | .na => .na
  | .num q => .num q
  | .str s =>
    match parseDecimal s with
    | some q => .num q
    | none => .na

/-- `df[c] = pd.to_numeric(df[c], errors="coerce")`. -/
def toNumericCol (df : DataFrame) (c : String) : DataFrame :=
  setCol df c (fun r => to_numeric (rowGet r c))

def wbCols : List String :=
  ["country_name", "iso3", "year", "indicator", "value"]

/-- `pd.DataFrame(flat_records)`: no records gives a frame with neither rows
nor columns; otherwise the five flattened columns. -/
def mkDF (flat : List Row) : DataFrame :=
  ⟨if flat.isEmpty then [] else wbCols, flat⟩

/-- `extract_worldbank_indicator`: run the pagination loop from page 1, then
coerce `year` and `value` to numeric and drop rows with missing `iso3` or
`country_name` — unless the frame is empty, which skips that block. Returns
the raw accumulated records unmodified alongside the frame. -/
def extract_worldbank_indicator (api : Nat → PyVal) (fuel : Nat) :
    List PyVal × DataFrame :=
  let acc := extractLoop api fuel 1 [] []
  let df := mkDF acc.2
  if !(dfEmpty df) then
    (acc.1, dropna (toNumericCol (toNumericCol df "year") "value") ["iso3", "country_name"])
  else (acc.1, df)

/-! ### Object heap for the mutation claim

To state that the cleaners never mutate their argument we embed them a
second time over an explicit object heap: `rename`, `.copy()`,
`sort_values`, `dropna` and `groupby(...).first()` allocate fresh frames,
while column assignment `df2[c] = ...` mutates the frame its reference
points to — exactly the aliasing structure of the source. -/

abbrev Heap := List DataFrame

def hget (h : Heap) (r : Nat) : DataFrame := h.getD r ⟨[], []⟩

def hset (h : Heap) (r : Nat) (d : DataFrame) : Heap := h.set r d

def halloc (h : Heap) (d : DataFrame) : Heap × Nat := (h ++ [d], h.length)

/-- In-place column assignment on the heap object `r` points to. -/
def hSetCol (h : Heap) (r : Nat) (c : String) (f : Row → Val) : Heap :=
  hset h r (setCol (hget h r) c f)

/-- `clean_countries_csv` over the heap, statement by statement:
`df.rename(columns=mapping)` allocates, `.copy()` allocates again, and the
column assignments mutate only the copy `df2`. -/
def clean_countries_csv_prog (h : Heap) (df : Nat) : Heap × Nat :=
  if dfEmpty (hget h df) then (h, df)
  else
    let mapping := standardize_colnames (hget h df).cols
    let a1 := halloc h (renameCols (hget h df) mapping)
    let a2 := halloc a1.1 (hget a1.1 a1.2)
    let h2 := a2.1
    let df2 := a2.2
    let h3 :=
      if (hget h2 df2).cols.contains "iso3" then
        hSetCol h2 df2 "iso3" (fun r => normIso3Cell (rowGet r "iso3"))
      else h2
    if (hget h3 df2).cols.contains "country_name" then
      let h4 := hSetCol h3 df2 "country_name"
        (fun r => trimCell (rowGet r "country_name"))
      let h5 := hSetCol h4 df2 "_country_norm"
        (fun r => normalize_country_name (rowGet r "country_name"))
      (h5, df2)
    else (hSetCol h3 df2 "_country_norm" (fun _ => .na), df2)

/-- `clean_worldbank_df` over the heap: `df.copy()` allocates `out`, the
three column assignments mutate `out`, and each rebinding of `out` to
`sort_values` / `dropna` / `groupby(...).first()` allocates a new frame. -/
def clean_worldbank_df_prog (h : Heap) (df : Nat) : Heap × Nat :=
  if dfEmpty (hget h df) then (h, df)
  else
    let a1 := halloc h (hget h df)
    let h1 := a1.1
    let out := a1.2
    let h2 := hSetCol h1 out "iso3" (fun r => normIso3Cell (rowGet r "iso3"))
    let h3 := hSetCol h2 out "country_name" (fun r => trimCell (rowGet r "country_name"))
    let h4 := hSetCol h3 out "_country_norm" (fun r => normalize_country_name (rowGet r "country_name"))
    let a2 := halloc h4 (sort_values (hget h4 out) [("iso3", true), ("year", false)])
    let a3 := halloc a2.1 (dropna (hget a2.1 a2.2) ["value"])
    let a4 := halloc a3.1 (groupbyFirst (hget a3.1 a3.2) "iso3")
    (a4.1, a4.2)

/-! ### Spec-side predicates (used only to state claims) -/

/-- A list already in the image shape of `collapseChars`: its whitespace is
single `' '` characters with no two adjacent. -/
def collapsedOK : List Char → Bool
  | [] => true
  | c :: rest =>
    ((!(pyIsSpace c)) || (c = ' ')) && (!(pyIsSpace c && spaceHead rest)) &&
    collapsedOK rest

/-- Spec-side: cell `a` holds a year that is no more recent than cell `b`
(a missing year counts as oldest). -/
def yearLE (a b : Val) : Prop :=
  a = .na ∨ ∃ p q : Rat, a = .num p ∧ b = .num q ∧ p ≤ q

/-- Spec-side: the cell is a number or missing. -/
def isNumOrNa (v : Val) : Prop :=
  v = .na ∨ ∃ q : Rat, v = .num q

/-! ## Theorems -/

section Helpers

theorem toNat_ofNat_valid (n : Nat) (h : n < 55296) : (Char.ofNat n).toNat = n := by
  have hv : n.isValidChar := Or.inl h
  simp only [Char.ofNat, dif_pos hv, Char.ofNatAux, Char.toNat]
  simp [UInt32.toNat, BitVec.ofNatLt]

theorem toLower_idem (c : Char) : Char.toLower (Char.toLower c) = Char.toLower c := by
  unfold Char.toLower
  by_cases h : c.toNat ≥ 65 ∧ c.toNat ≤ 90
  · rw [if_pos h]
    have h2 : (Char.ofNat (c.toNat + 32)).toNat = c.toNat + 32 :=
      toNat_ofNat_valid _ (by omega)
    rw [h2, if_neg (by omega)]
  · rw [if_neg h, if_neg h]

theorem map_eq_self_of_fixed {α : Type} (f : α → α) :
    ∀ (l : List α), (∀ c ∈ l, f c = c) → l.map f = l
  | [], _ => rfl
  | c :: rest, h => by
    have h1 : f c = c := h c (List.mem_cons_self c rest)
    have h2 := map_eq_self_of_fixed f rest (fun x hx => h x (List.mem_cons_of_mem c hx))
    simp [List.map, h1, h2]

theorem spaceHead_collapse :
    ∀ (l : List Char), spaceHead l = false → spaceHead (collapseChars l) = false
  | [], _ => rfl
  | c :: rest, h => by
    simp only [spaceHead] at h
    simp [collapseChars, h, spaceHead]

theorem mem_collapseChars : ∀ (l : List Char), ∀ c ∈ collapseChars l, c = ' ' ∨ c ∈ l
  | [], c, hc => by simp [collapseChars] at hc
  | a :: rest, c, hc => by
    simp only [collapseChars] at hc
    by_cases ha : pyIsSpace a = true
    · rw [if_pos ha] at hc
      by_cases h2 : spaceHead rest = true
      · rw [if_pos h2] at hc
        rcases mem_collapseChars rest c hc with h | h
        · exact Or.inl h
        · exact Or.inr (List.mem_cons_of_mem a h)
      · rw [if_neg h2] at hc
        rcases List.mem_cons.mp hc with h | h
        · exact Or.inl h
        · rcases mem_collapseChars rest c h with h | h
          · exact Or.inl h
          · exact Or.inr (List.mem_cons_of_mem a h)
    · rw [if_neg ha] at hc
      rcases List.mem_cons.mp hc with h | h
      · exact Or.inr (h ▸ List.mem_cons_self a rest)
      · rcases mem_collapseChars rest c h with h | h
        · exact Or.inl h
        · exact Or.inr (List.mem_cons_of_mem a h)

theorem collapseChars_of_collapsedOK :
    ∀ (l : List Char), collapsedOK l = true → collapseChars l = l
  | [], _ => rfl
  | c :: rest, h => by
    simp only [collapsedOK, Bool.and_eq_true] at h
    obtain ⟨⟨hc, hadj⟩, hrest⟩ := h
    have ih := collapseChars_of_collapsedOK rest hrest
    simp only [collapseChars]
    by_cases hs : pyIsSpace c = true
    · have hcsp : c = ' ' := by
        rcases Bool.or_eq_true_iff.mp hc with h | h
        · simp [hs] at h
        · exact of_decide_eq_true h
      have h2 : spaceHead rest = false := by
        simp [hs] at hadj
        exact hadj
      rw [if_pos hs, if_neg (by simp [h2]), ih, hcsp]
    · rw [if_neg hs, ih]

theorem collapsedOK_collapseChars : ∀ (l : List Char), collapsedOK (collapseChars l) = true
  | [] => rfl
  | c :: rest => by
    have ih := collapsedOK_collapseChars rest
    simp only [collapseChars]
    by_cases hs : pyIsSpace c = true
    · rw [if_pos hs]
      by_cases h2 : spaceHead rest = true
      · rw [if_pos h2]; exact ih
      · rw [if_neg h2]
        simp only [collapsedOK, Bool.and_eq_true]
        refine ⟨⟨by decide, ?_⟩, ih⟩
        have := spaceHead_collapse rest (Bool.not_eq_true _ ▸ h2)
        simp [this]
    · rw [if_neg hs]
      simp only [collapsedOK, Bool.and_eq_true]
      exact ⟨⟨by simp [hs], by simp [hs]⟩, ih⟩

theorem lookup_mem_values {α : Type} [BEq α] :
    ∀ (l : List (α × α)) (k v : α), l.lookup k = some v → v ∈ l.map Prod.snd
  | [], _, _, h => by simp [List.lookup] at h
  | (a, b) :: rest, k, v, h => by
    simp only [List.lookup] at h
    cases hk : k == a with
    | true =>
      rw [hk] at h
      simp only [List.map, List.mem_cons]
      exact Or.inl (Option.some.inj h).symm
    | false =>
      rw [hk] at h
      exact List.mem_cons_of_mem _ (lookup_mem_values rest k v h)

/-- Every alias value is already in normal form and is not itself a key. -/
theorem alias_values_fixed :
    ∀ v ∈ aliases.map Prod.snd, pyNormStr v = v ∧ aliases.lookup v = none := by decide

theorem pyNormStr_chars (s : String) :
    ∀ c ∈ (pyNormStr s).data, Char.toLower c = c ∧ (isWordChar c || pyIsSpace c) = true := by
  intro c hc
  have hmem := mem_collapseChars _ c hc
  rcases hmem with h | h
  · subst h; exact ⟨rfl, by decide⟩
  · simp only [stripPunctChars, List.mem_filter] at h
    obtain ⟨hmap, hpred⟩ := h
    constructor
    · simp only [pyLower] at hmap
      obtain ⟨c0, _, rfl⟩ := List.mem_map.mp hmap
      exact toLower_idem c0
    · exact hpred

theorem pyNormStr_of_norm (s : String) (h : pyStrip (pyNormStr s) = pyNormStr s) :
    pyNormStr (pyNormStr s) = pyNormStr s := by
  have hchars := pyNormStr_chars s
  conv_lhs => rw [pyNormStr, h]
  have hlow : pyLower (pyNormStr s) = pyNormStr s := by
    simp only [pyLower]
    rw [map_eq_self_of_fixed _ _ (fun c hc => (hchars c hc).1)]
  rw [hlow]
  have hfilt : stripPunctChars (pyNormStr s).data = (pyNormStr s).data := by
    simp only [stripPunctChars]
    exact List.filter_eq_self.mpr (fun c hc => (hchars c hc).2)
  rw [hfilt]
  have hcoll : collapseChars (pyNormStr s).data = (pyNormStr s).data := by
    apply collapseChars_of_collapsedOK
    have : (pyNormStr s).data = collapseChars (stripPunctChars (pyLower (pyStrip s)).data) := rfl
    rw [this]
    exact collapsedOK_collapseChars _
  rw [hcoll]

theorem nrm_idem_of_trimmed (s : String) (h : pyStrip (nrm s) = nrm s) :
    nrm (nrm s) = nrm s := by
  rcases hl : aliases.lookup (pyNormStr s) with _ | v
  · have hs : nrm s = pyNormStr s := by simp [nrm, hl]
    rw [hs] at h ⊢
    rw [nrm, pyNormStr_of_norm s h, hl]
    rfl
  · have hs : nrm s = v := by simp [nrm, hl]
    have hv := alias_values_fixed v (lookup_mem_values _ _ _ hl)
    rw [hs, nrm, hv.1, hv.2]
    rfl

end Helpers

/-- C5: `normalize_country_name` maps both spellings "USA" and
"United States" to the same canonical string "united states of america". -/
theorem normalize_usa_eq_united_states :
    normalize_country_name (Val.str "USA") = Val.str "united states of america" ∧
    normalize_country_name (Val.str "United States") = Val.str "united states of america" := by
  decide

/-- C4 (counterexample): `normalize_country_name` is not idempotent. On the
string "? france" the punctuation strip exposes a leading space that the
whitespace collapse keeps as a single leading space, so one pass yields
" france" while a second pass strips it to "france". -/
theorem normalize_not_idempotent_cex :
    normalize_country_name (Val.str "? france") = Val.str " france" ∧
    normalize_country_name (normalize_country_name (Val.str "? france")) = Val.str "france" ∧
    Val.str "france" ≠ Val.str " france" := by decide

/-- C4 (amended): `normalize_country_name` is idempotent on every
non-missing string whose normalization carries no surrounding whitespace
(equivalently, whenever the first pass returns a trimmed string); and no
value of the alias table is itself an alias key, so alias targets are fixed
points. -/
theorem normalize_idempotent_of_trimmed :
    (∀ s : String, pyStrip (nrm s) = nrm s →
      normalize_country_name (normalize_country_name (Val.str s)) =
        normalize_country_name (Val.str s)) ∧
    (∀ v ∈ aliases.map Prod.snd, aliases.lookup v = none) := by
  constructor
  · intro s h
    show Val.str (nrm (nrm s)) = Val.str (nrm s)
    rw [nrm_idem_of_trimmed s h]
  · intro v hv
    exact (alias_values_fixed v hv).2

/-- Witness for the amended C4 at the concrete input "USA". -/
theorem normalize_idempotent_of_trimmed_witness :
    normalize_country_name (normalize_country_name (Val.str "USA")) =
      normalize_country_name (Val.str "USA") :=
  normalize_idempotent_of_trimmed.1 "USA" (by decide)

/-- C3 (counterexample): the header "Country Name" is not matched by
`standardize_colnames`: its trimmed lowercase form "country name" (with an
inner space) is not in the synonym set, so the mapping is empty and the
header is not renamed to `country_name`. -/
theorem standardize_colnames_country_name_cex :
    standardize_colnames ["Country Name"] = [] ∧
    ¬ (standardize_colnames ["Country Name"]).lookup "Country Name" = some "country_name" := by
  decide

/-- C3 (amended): matching a header against the country synonym group is
insensitive to letter case and to surrounding (but not inner) whitespace:
any header whose trimmed lowercase form is "country", "country_name",
"name" or "countryname" is mapped to `country_name`; in particular
"country_name" and "COUNTRYNAME" are, while "Country Name" is not (its
inner space survives trimming). -/
theorem standardize_colnames_country_name :
    (∀ c : String,
        (pyLower (pyStrip c) = "country" ∨ pyLower (pyStrip c) = "country_name" ∨
         pyLower (pyStrip c) = "name" ∨ pyLower (pyStrip c) = "countryname") →
        (standardize_colnames [c]).lookup c = some "country_name") ∧
    (standardize_colnames ["country_name"]).lookup "country_name" = some "country_name" ∧
    (standardize_colnames ["COUNTRYNAME"]).lookup "COUNTRYNAME" = some "country_name" := by
  refine ⟨?_, by decide, by decide⟩
  intro c h
  simp only [standardize_colnames, List.foldl, scStep]
  rcases h with h | h | h | h <;> simp [h, List.lookup]

/-- Witness for the amended C3 at the concrete header "  NAME ". -/
theorem standardize_colnames_country_name_witness :
    (standardize_colnames ["  NAME "]).lookup "  NAME " = some "country_name" :=
  standardize_colnames_country_name.1 "  NAME " (by decide)

section Ordering

theorem linCmp_eq_iff {α : Type} [LinearOrder α] (a b : α) :
    linCmp a b = Ordering.eq ↔ a = b := by
  unfold linCmp
  split_ifs with h1 h2
  · exact iff_of_false (by decide) (ne_of_lt h1)
  · exact iff_of_false (by decide) (ne_of_gt h2)
  · exact iff_of_true rfl (le_antisymm (not_lt.mp h2) (not_lt.mp h1))

theorem linCmp_lt_iff {α : Type} [LinearOrder α] (a b : α) :
    linCmp a b = Ordering.lt ↔ a < b := by
  unfold linCmp
  split_ifs with h1 h2
  · simp [h1]
  · simp [h1]
  · simp [h1]

theorem linCmp_swap {α : Type} [LinearOrder α] (a b : α) :
    linCmp b a = (linCmp a b).swap := by
  unfold linCmp
  split_ifs with h1 h2
  · exact absurd h2 (asymm h1)
  · rfl
  · rfl
  · rfl

theorem charToNat_inj {a b : Char} (h : a.toNat = b.toNat) : a = b := by
  refine Char.eq_of_val_eq (UInt32.eq_of_toBitVec_eq ?_)
  simp only [Char.toNat, UInt32.toNat] at h
  exact BitVec.eq_of_toNat_eq h

theorem charCmp_eq_iff (a b : Char) : charCmp a b = Ordering.eq ↔ a = b := by
  unfold charCmp
  split_ifs with h1 h2
  · exact iff_of_false (by decide) (fun h => by rw [h] at h1; omega)
  · exact iff_of_false (by decide) (fun h => by rw [h] at h2; omega)
  · exact iff_of_true rfl (charToNat_inj (by omega))

theorem charCmp_swap (a b : Char) : charCmp b a = (charCmp a b).swap := by
  unfold charCmp
  split_ifs with h1 h2 <;> first | rfl | omega

theorem charCmp_lt_trans {a b c : Char}
    (h1 : charCmp a b = Ordering.lt) (h2 : charCmp b c = Ordering.lt) :
    charCmp a c = Ordering.lt := by
  unfold charCmp at h1 h2 ⊢
  split_ifs at h1 h2 ⊢ <;> first | rfl | omega | exact absurd h1 (by decide) | exact absurd h2 (by decide)

theorem strCmpChars_eq_iff : ∀ (l1 l2 : List Char), strCmpChars l1 l2 = Ordering.eq ↔ l1 = l2
  | [], [] => by simp [strCmpChars]
  | [], _ :: _ => by simp [strCmpChars]
  | _ :: _, [] => by simp [strCmpChars]
  | a :: as, b :: bs => by
    simp only [strCmpChars]
    cases h : charCmp a b with
    | eq =>
      have hab := (charCmp_eq_iff a b).mp h
      rw [strCmpChars_eq_iff as bs]
      simp [hab]
    | lt =>
      refine iff_of_false (fun hx => Ordering.noConfusion hx) ?_
      intro hx
      rw [List.cons.injEq] at hx
      rw [(charCmp_eq_iff a b).mpr hx.1] at h
      exact absurd h (by decide)
    | gt =>
      refine iff_of_false (fun hx => Ordering.noConfusion hx) ?_
      intro hx
      rw [List.cons.injEq] at hx
      rw [(charCmp_eq_iff a b).mpr hx.1] at h
      exact absurd h (by decide)

theorem strCmpChars_swap : ∀ (l1 l2 : List Char), strCmpChars l2 l1 = (strCmpChars l1 l2).swap
  | [], [] => rfl
  | [], _ :: _ => rfl
  | _ :: _, [] => rfl
  | a :: as, b :: bs => by
    simp only [strCmpChars]
    rw [charCmp_swap]
    cases h : charCmp a b <;> simp [Ordering.swap, strCmpChars_swap as bs]

theorem strCmpChars_lt_trans : ∀ {l1 l2 l3 : List Char},
    strCmpChars l1 l2 = Ordering.lt → strCmpChars l2 l3 = Ordering.lt →
    strCmpChars l1 l3 = Ordering.lt
  | [], [], _, h1, _ => by simp [strCmpChars] at h1
  | [], _ :: _, [], _, h2 => by simp [strCmpChars] at h2
  | [], _ :: _, _ :: _, _, _ => by simp [strCmpChars]
  | _ :: _, [], _, h1, _ => by simp [strCmpChars] at h1
  | _ :: _, _ :: _, [], _, h2 => by simp [strCmpChars] at h2
  | a :: as, b :: bs, c :: cs, h1, h2 => by
    simp only [strCmpChars] at h1 h2 ⊢
    cases hx : charCmp a b with
    | gt => rw [hx] at h1; exact Ordering.noConfusion h1
    | lt =>
      cases hy : charCmp b c with
      | gt => rw [hy] at h2; exact Ordering.noConfusion h2
      | lt => rw [charCmp_lt_trans hx hy]
      | eq => rw [← (charCmp_eq_iff b c).mp hy, hx]
    | eq =>
      have hab := (charCmp_eq_iff a b).mp hx
      rw [hx] at h1
      cases hy : charCmp b c with
      | gt => rw [hy] at h2; exact Ordering.noConfusion h2
      | lt => rw [hab, hy]
      | eq =>
        rw [hy] at h2
        rw [hab, hy]
        exact strCmpChars_lt_trans h1 h2

theorem strCmp_eq_iff (a b : String) : strCmp a b = Ordering.eq ↔ a = b := by
  unfold strCmp
  rw [strCmpChars_eq_iff]
  constructor
  · intro h
    cases a
    cases b
    exact congrArg String.mk h
  · intro h
    rw [h]

theorem strCmp_swap (a b : String) : strCmp b a = (strCmp a b).swap :=
  strCmpChars_swap a.data b.data

theorem strCmp_lt_trans {a b c : String}
    (h1 : strCmp a b = Ordering.lt) (h2 : strCmp b c = Ordering.lt) :
    strCmp a c = Ordering.lt :=
  strCmpChars_lt_trans h1 h2

theorem keyCmp_eq_iff (asc : Bool) (a b : Val) : keyCmp asc a b = Ordering.eq ↔ a = b := by
  cases a <;> cases b <;> cases asc <;>
    simp [keyCmp, linCmp_eq_iff, strCmp_eq_iff] <;>
    exact eq_comm

theorem keyCmp_swap (asc : Bool) (a b : Val) : keyCmp asc b a = (keyCmp asc a b).swap := by
  cases a <;> cases b <;> cases asc <;>
    first
      | rfl
      | (show linCmp _ _ = (linCmp _ _).swap
         rw [linCmp_swap])
      | (show strCmp _ _ = (strCmp _ _).swap
         rw [strCmp_swap])

theorem keyCmp_lt_trans (asc : Bool) {a b c : Val}
    (h1 : keyCmp asc a b = Ordering.lt) (h2 : keyCmp asc b c = Ordering.lt) :
    keyCmp asc a c = Ordering.lt := by
  cases a <;> cases b <;> cases c <;> cases asc <;>
    simp_all [keyCmp, linCmp_lt_iff] <;>
    first
      | exact lt_trans h1 h2
      | exact lt_trans h2 h1
      | exact strCmp_lt_trans h1 h2
      | exact strCmp_lt_trans h2 h1

theorem rowCmp_swap : ∀ (ks : List (String × Bool)) (a b : Row),
    rowCmp ks b a = (rowCmp ks a b).swap
  | [], _, _ => rfl
  | (c, asc) :: rest, a, b => by
    simp only [rowCmp]
    rw [keyCmp_swap]
    cases h : keyCmp asc (rowGet a c) (rowGet b c) <;>
      simp [Ordering.swap, rowCmp_swap rest a b]

theorem rowCmp_trans_ne_gt : ∀ (ks : List (String × Bool)) {a b c : Row},
    ¬ rowCmp ks a b = Ordering.gt → ¬ rowCmp ks b c = Ordering.gt →
    ¬ rowCmp ks a c = Ordering.gt
  | [], _, _, _, _, _ => by simp [rowCmp]
  | (k, asc) :: rest, a, b, c, hab, hbc => by
    simp only [rowCmp] at hab hbc ⊢
    cases hx : keyCmp asc (rowGet a k) (rowGet b k) with
    | gt => rw [hx] at hab; exact absurd rfl hab
    | lt =>
      cases hy : keyCmp asc (rowGet b k) (rowGet c k) with
      | gt => rw [hy] at hbc; exact absurd rfl hbc
      | lt => rw [keyCmp_lt_trans asc hx hy]; simp
      | eq =>
        have hbcv := (keyCmp_eq_iff asc _ _).mp hy
        rw [← hbcv, hx]; simp
    | eq =>
      have habv := (keyCmp_eq_iff asc _ _).mp hx
      rw [hx] at hab
      cases hy : keyCmp asc (rowGet b k) (rowGet c k) with
      | gt => rw [hy] at hbc; exact absurd rfl hbc
      | lt => rw [habv, hy]; simp
      | eq =>
        rw [hy] at hbc
        rw [habv, hy]
        exact rowCmp_trans_ne_gt rest hab hbc

instance (ks : List (String × Bool)) : IsTotal Row (rowLe ks) := by
  constructor
  intro a b
  unfold rowLe
  rw [rowCmp_swap ks a b]
  cases rowCmp ks a b <;> simp [Ordering.swap]

instance (ks : List (String × Bool)) : IsTrans Row (rowLe ks) :=
  ⟨fun _ _ _ => rowCmp_trans_ne_gt ks⟩

theorem sort_values_sorted (df : DataFrame) (ks : List (String × Bool)) :
    List.Sorted (rowLe ks) (sort_values df ks).rows :=
  List.sorted_insertionSort (rowLe ks) df.rows

theorem sort_values_perm (df : DataFrame) (ks : List (String × Bool)) :
    (sort_values df ks).rows.Perm df.rows :=
  List.perm_insertionSort (rowLe ks) df.rows

end Ordering

section MergeCount

theorem valMatch_eq {a b : Val} (h : valMatch a b = true) : a = b := by
  unfold valMatch at h
  simp only [Bool.and_eq_true, beq_iff_eq] at h
  tauto

theorem flatMap_length_eq {α β : Type} (f : α → List β) :
    ∀ (l : List α), (∀ x ∈ l, (f x).length = 1) → (l.flatMap f).length = l.length
  | [], _ => rfl
  | x :: rest, h => by
    have h1 := h x (List.mem_cons_self x rest)
    have h2 := flatMap_length_eq f rest (fun y hy => h y (List.mem_cons_of_mem x hy))
    simp only [List.flatMap_cons, List.length_append, List.length_cons, h1, h2]
    omega

theorem flatMap_length_ge {α β : Type} (f : α → List β) :
    ∀ (l : List α), (∀ x ∈ l, 1 ≤ (f x).length) → l.length ≤ (l.flatMap f).length
  | [], _ => Nat.le_refl 0
  | x :: rest, h => by
    have h1 := h x (List.mem_cons_self x rest)
    have h2 := flatMap_length_ge f rest (fun y hy => h y (List.mem_cons_of_mem x hy))
    simp only [List.flatMap_cons, List.length_append, List.length_cons]
    omega

theorem filter_match_le_one (key : String) (k : Val) :
    ∀ (rows : List Row), (rows.map (fun r => rowGet r key)).Nodup →
      (rows.filter (fun r => valMatch k (rowGet r key))).length ≤ 1
  | [], _ => by simp
  | r :: rest, h => by
    simp only [List.map_cons, List.nodup_cons] at h
    obtain ⟨hnotin, hnd⟩ := h
    by_cases hm : valMatch k (rowGet r key) = true
    · rw [List.filter_cons, if_pos hm]
      have hrest : rest.filter (fun x => valMatch k (rowGet x key)) = [] := by
        rw [List.filter_eq_nil_iff]
        intro x hx hmx
        have h1 := valMatch_eq hm
        have h2 := valMatch_eq hmx
        exact hnotin (h1 ▸ h2 ▸ List.mem_map_of_mem (fun r => rowGet r key) hx)
      rw [hrest]
      exact Nat.le_refl 1
    · rw [List.filter_cons, if_neg hm]
      exact filter_match_le_one key k rest hnd

theorem mergeLeft_length_eq {left right : DataFrame} {key : String} {m : DataFrame}
    (hnd : (right.rows.map (fun r => rowGet r key)).Nodup)
    (h : mergeLeft left right key = Except.ok m) :
    m.rows.length = left.rows.length := by
  unfold mergeLeft at h
  split_ifs at h with hc
  obtain rfl := (Except.ok.inj h).symm
  apply flatMap_length_eq
  intro l _
  set ms := right.rows.filter (fun r => valMatch (rowGet l key) (rowGet r key)) with hms
  by_cases hE : ms.isEmpty = true
  · rw [if_pos hE]; rfl
  · rw [if_neg hE]
    rw [List.length_map]
    have hle : ms.length ≤ 1 := filter_match_le_one key (rowGet l key) right.rows hnd
    have hpos : ms ≠ [] := by
      intro hnil
      rw [hnil] at hE
      exact hE rfl
    have := List.length_pos.mpr hpos
    omega

theorem mergeLeft_length_ge {left right : DataFrame} {key : String} {m : DataFrame}
    (h : mergeLeft left right key = Except.ok m) :
    left.rows.length ≤ m.rows.length := by
  unfold mergeLeft at h
  split_ifs at h with hc
  obtain rfl := (Except.ok.inj h).symm
  apply flatMap_length_ge
  intro l _
  set ms := right.rows.filter (fun r => valMatch (rowGet l key) (rowGet r key)) with hms
  by_cases hE : ms.isEmpty = true
  · rw [if_pos hE]; exact Nat.le_refl 1
  · rw [if_neg hE]
    rw [List.length_map]
    have hpos : ms ≠ [] := by
      intro hnil
      rw [hnil] at hE
      exact hE rfl
    exact List.length_pos.mpr hpos

theorem groupbyFirst_keys (df : DataFrame) (key : String) :
    (groupbyFirst df key).rows.map (fun r => rowGet r key) = groupKeys df.rows key := by
  unfold groupbyFirst
  rw [List.map_map]
  have : ∀ g ∈ groupKeys df.rows key,
      ((fun r : Row => rowGet r key) ∘ fun g =>
        ((key, g) :: (df.cols.filter (fun c => !(c == key))).map
          (fun c => (c, firstNonNa (df.rows.filter (fun r => rowGet r key == g)) c)) : Row)) g
        = id g := by
    intro g _
    simp [rowGet]
  rw [List.map_congr_left this, List.map_id]

theorem groupbyFirst_keys_nodup (df : DataFrame) (key : String) :
    ((groupbyFirst df key).rows.map (fun r => rowGet r key)).Nodup := by
  rw [groupbyFirst_keys]
  exact List.nodup_dedup _

end MergeCount

section MergeClaims

theorem selectCols_ok {df : DataFrame} {cs : List String} {w : DataFrame}
    (h : selectCols df cs = Except.ok w) :
    w.cols = cs ∧ w.rows = df.rows.map (fun r => cs.map (fun c => (c, rowGet r c))) := by
  unfold selectCols at h
  split_ifs at h with hc
  obtain rfl := Except.ok.inj h
  exact ⟨rfl, rfl⟩

theorem clean_worldbank_iso3_nodup (df : DataFrame)
    (hcols : (clean_worldbank_df df).cols.contains "iso3" = true) :
    ((clean_worldbank_df df).rows.map (fun r => rowGet r "iso3")).Nodup := by
  by_cases hE : dfEmpty df = true
  · unfold clean_worldbank_df at hcols ⊢
    rw [if_pos hE] at hcols ⊢
    unfold dfEmpty at hE
    rcases Bool.or_eq_true_iff.mp hE with h | h
    · rw [List.isEmpty_iff.mp h]
      simp
    · rw [List.isEmpty_iff.mp h] at hcols
      simp [List.contains] at hcols
  · unfold clean_worldbank_df
    rw [if_neg hE]
    exact groupbyFirst_keys_nodup _ "iso3"

/-- C1 (amended): merging a reference table with a cleaned indicator table
never drops a reference row, and on the iso3 join path it also never
duplicates one — the cleaned table has at most one row per ISO3, so the
merged table has exactly as many rows as the reference table. On the
`_country_norm` fallback path the row count can only grow: the cleaned
table is deduplicated per ISO3, not per normalized name, so two cleaned
rows sharing a `_country_norm` fan a matching reference row out. -/
theorem merge_preserves_refcount :
    (∀ countries wbRaw m : DataFrame,
        countries.cols.contains "iso3" = true →
        (clean_worldbank_df wbRaw).cols.contains "iso3" = true →
        merge_datasets countries (clean_worldbank_df wbRaw) = Except.ok m →
        m.rows.length = countries.rows.length) ∧
    (∀ countries wb m : DataFrame,
        merge_datasets countries wb = Except.ok m →
        countries.rows.length ≤ m.rows.length) := by
  constructor
  · intro countries wbRaw m h1 h2 hm
    unfold merge_datasets at hm
    have hcond : (countries.cols.contains "iso3"
        && (clean_worldbank_df wbRaw).cols.contains "iso3") = true := by
      rw [h1, h2]
      rfl
    rw [if_pos hcond] at hm
    cases hsel : selectCols (clean_worldbank_df wbRaw) ["iso3", "indicator", "value"] with
    | error e => rw [hsel] at hm; cases hm
    | ok w =>
      rw [hsel] at hm
      refine mergeLeft_length_eq ?_ hm
      obtain ⟨hwc, hwr⟩ := selectCols_ok hsel
      rw [hwr, List.map_map]
      have hcong : ∀ r ∈ (clean_worldbank_df wbRaw).rows,
          ((fun r : Row => rowGet r "iso3") ∘
            fun r : Row => List.map (fun c => (c, rowGet r c)) ["iso3", "indicator", "value"]) r
          = (fun r : Row => rowGet r "iso3") r := by
        intro r _
        simp [rowGet]
      rw [List.map_congr_left hcong]
      exact clean_worldbank_iso3_nodup wbRaw h2
  · intro countries wb m hm
    unfold merge_datasets at hm
    split_ifs at hm with hc
    · cases hsel : selectCols wb ["iso3", "indicator", "value"] with
      | error e => rw [hsel] at hm; cases hm
      | ok w => rw [hsel] at hm; exact mergeLeft_length_ge hm
    · cases hsel : selectCols wb ["_country_norm", "indicator", "value"] with
      | error e => rw [hsel] at hm; cases hm
      | ok w => rw [hsel] at hm; exact mergeLeft_length_ge hm

/-- Witness for the amended C1, on a one-row reference table with an iso3
column and a one-row indicator table. -/
theorem merge_preserves_refcount_witness :
    (DataFrame.mk ["iso3", "indicator", "value"]
        [[("iso3", Val.str "CZE"), ("indicator", Val.str "I"), ("value", Val.num 1)]]).rows.length
      = (DataFrame.mk ["iso3"] [[("iso3", Val.str "CZE")]]).rows.length :=
  merge_preserves_refcount.1
    ⟨["iso3"], [[("iso3", Val.str "CZE")]]⟩
    ⟨["country_name", "iso3", "year", "indicator", "value"],
     [[("country_name", Val.str "Czechia"), ("iso3", Val.str "CZE"), ("year", Val.num 2020),
       ("indicator", Val.str "I"), ("value", Val.num 1)]]⟩
    ⟨["iso3", "indicator", "value"],
     [[("iso3", Val.str "CZE"), ("indicator", Val.str "I"), ("value", Val.num 1)]]⟩
    (by decide) (by decide) (by decide)

/-- C1 (counterexample): on the `_country_norm` fallback path the left-join
duplicates a reference row. Two indicator rows with distinct ISO3 codes but
the same country name "X" survive cleaning as two rows with the same
`_country_norm`; a one-row reference table without iso3 then merges into
two rows. -/
theorem merge_fanout_cex :
    (clean_countries_csv ⟨["name"], [[("name", Val.str "X")]]⟩).rows.length = 1 ∧
    Except.map (fun m : DataFrame => m.rows.length)
      (merge_datasets (clean_countries_csv ⟨["name"], [[("name", Val.str "X")]]⟩)
        (clean_worldbank_df
          ⟨["country_name", "iso3", "year", "indicator", "value"],
           [[("country_name", Val.str "X"), ("iso3", Val.str "AAA"), ("year", Val.num 2000),
             ("indicator", Val.str "I"), ("value", Val.num 1)],
            [("country_name", Val.str "X"), ("iso3", Val.str "BBB"), ("year", Val.num 2000),
             ("indicator", Val.str "I"), ("value", Val.num 2)]]⟩)) = Except.ok 2 := by
  decide

end MergeClaims

/-- C8: a reference row named "Laos" in a table with no iso3 column merges
through the `_country_norm` fallback: cleaning normalizes "Laos" to
"lao pdr", the cleaned indicator row for "Lao PDR" carries the same
`_country_norm`, and the merged row receives its indicator and value. -/
theorem merge_laos_fallback :
    normalize_country_name (Val.str "Laos") = Val.str "lao pdr" ∧
    (clean_countries_csv ⟨["name"], [[("name", Val.str "Laos")]]⟩).cols.contains "iso3" = false ∧
    (clean_worldbank_df
        ⟨["country_name", "iso3", "year", "indicator", "value"],
         [[("country_name", Val.str "Lao PDR"), ("iso3", Val.str "LAO"), ("year", Val.num 2020),
           ("indicator", Val.str "SP.POP.TOTL"), ("value", Val.num 7000000)]]⟩).rows.map
      (fun r => rowGet r "_country_norm") = [Val.str "lao pdr"] ∧
    Except.map
      (fun m : DataFrame => m.rows.map
        (fun r => (rowGet r "country_name", rowGet r "indicator", rowGet r "value")))
      (merge_datasets (clean_countries_csv ⟨["name"], [[("name", Val.str "Laos")]]⟩)
        (clean_worldbank_df
          ⟨["country_name", "iso3", "year", "indicator", "value"],
           [[("country_name", Val.str "Lao PDR"), ("iso3", Val.str "LAO"), ("year", Val.num 2020),
             ("indicator", Val.str "SP.POP.TOTL"), ("value", Val.num 7000000)]]⟩))
      = Except.ok [(Val.str "Laos", Val.str "SP.POP.TOTL", Val.num 7000000)] := by
  decide

/-- C9 (amended): an indicator table fetched with no records at all is the
frame with neither rows nor columns; `clean_worldbank_df` returns it
unchanged, and `merge_datasets` then fails with a `KeyError` on the
indicator-side column selection for every reference table. An empty fetched
table that kept its five columns (rows all dropped) behaves differently —
see the counterexample. -/
theorem merge_empty_indicator :
    clean_worldbank_df ⟨[], []⟩ = ⟨[], []⟩ ∧
    (∀ ref : DataFrame, merge_datasets ref ⟨[], []⟩ = Except.error "KeyError") := by
  constructor
  · rfl
  · intro ref
    unfold merge_datasets
    have h2 : (DataFrame.mk ([] : List String) ([] : List Row)).cols.contains "iso3" = false := rfl
    rw [h2, Bool.and_false, if_neg (by decide)]
    rfl

/-- C9 (counterexample): a fetched indicator table can be empty yet keep its
five columns — one record with no iso3 code is flattened and then dropped.
`clean_worldbank_df` returns that frame unchanged (it has an `iso3` column),
and `merge_datasets` with an iso3-bearing reference table succeeds and
returns the reference row with missing indicator/value instead of raising. -/
theorem merge_empty_indicator_cex :
    (fun wbF : DataFrame =>
      dfEmpty wbF = true ∧
      clean_worldbank_df wbF = wbF ∧
      wbF.cols.contains "iso3" = true ∧
      Except.map
        (fun m : DataFrame => m.rows.map (fun r => (rowGet r "iso3", rowGet r "value")))
        (merge_datasets ⟨["iso3"], [[("iso3", Val.str "ABW")]]⟩ wbF)
        = Except.ok [(Val.str "ABW", Val.na)])
    (extract_worldbank_indicator
        (fun _ => PyVal.plist [PyVal.pdict [("pages", PyVal.pnum 1)],
          PyVal.plist [PyVal.pdict [("country", PyVal.pdict [("value", PyVal.pstr "Aruba")]),
            ("date", PyVal.pstr "2020"), ("indicator", PyVal.pdict [("id", PyVal.pstr "I")]),
            ("value", PyVal.pnum 5)]]])
        1).2 := by
  decide

section Cells

theorem rowGet_map_set (c : String) (v : Val) :
    ∀ (r : Row), r.any (fun p => p.1 = c) = true →
      rowGet (r.map (fun p => if p.1 = c then (c, v) else p)) c = v
  | [], h => by simp at h
  | (k, w) :: rest, h => by
    simp only [List.map]
    by_cases hk : k = c
    · rw [if_pos hk, rowGet, if_pos rfl]
    · rw [if_neg hk, rowGet, if_neg hk]
      apply rowGet_map_set c v rest
      simp only [List.any_cons, Bool.or_eq_true_iff] at h
      rcases h with h | h
      · exact absurd (of_decide_eq_true h) hk
      · exact h

theorem rowGet_map_keep (c c2 : String) (v : Val) (hne : c2 ≠ c) :
    ∀ (r : Row), rowGet (r.map (fun p => if p.1 = c then (c, v) else p)) c2 = rowGet r c2
  | [] => rfl
  | (k, w) :: rest => by
    simp only [List.map]
    by_cases hk : k = c
    · rw [if_pos hk, rowGet, rowGet, if_neg (fun hx => hne hx.symm),
        if_neg (fun hx => hne (hk ▸ hx).symm)]
      exact rowGet_map_keep c c2 v hne rest
    · rw [if_neg hk, rowGet, rowGet]
      by_cases hk2 : k = c2
      · rw [if_pos hk2, if_pos hk2]
      · rw [if_neg hk2, if_neg hk2]
        exact rowGet_map_keep c c2 v hne rest

theorem rowGet_of_no_key (c : String) :
    ∀ (r : Row), r.any (fun p => p.1 = c) = false → ∀ (tail : Row),
      rowGet (r ++ tail) c = rowGet tail c
  | [], _, tail => rfl
  | (k, w) :: rest, h, tail => by
    rw [List.any_cons, Bool.or_eq_false_iff] at h
    simp only [List.cons_append, rowGet]
    rw [if_neg (of_decide_eq_false h.1)]
    exact rowGet_of_no_key c rest h.2 tail

theorem rowGet_append_single_ne (c c2 : String) (v : Val) (hne : c2 ≠ c) :
    ∀ (r : Row), rowGet (r ++ [(c, v)]) c2 = rowGet r c2
  | [] => by
    simp only [List.nil_append, rowGet]
    rw [if_neg (fun hx => hne hx.symm)]
  | (k, w) :: rest => by
    simp only [List.cons_append, rowGet]
    by_cases hk : k = c2
    · rw [if_pos hk, if_pos hk]
    · rw [if_neg hk, if_neg hk]
      exact rowGet_append_single_ne c c2 v hne rest

theorem rowGet_setCell_self (r : Row) (c : String) (v : Val) :
    rowGet (setCell r c v) c = v := by
  unfold setCell
  by_cases h : r.any (fun p => p.1 = c) = true
  · rw [if_pos h]
    exact rowGet_map_set c v r h
  · rw [if_neg h]
    rw [rowGet_of_no_key c r (Bool.eq_false_iff.mpr h) [(c, v)]]
    simp [rowGet]

theorem rowGet_setCell_ne (r : Row) (c c2 : String) (v : Val) (hne : c2 ≠ c) :
    rowGet (setCell r c v) c2 = rowGet r c2 := by
  unfold setCell
  by_cases h : r.any (fun p => p.1 = c) = true
  · rw [if_pos h]
    exact rowGet_map_keep c c2 v hne r
  · rw [if_neg h]
    exact rowGet_append_single_ne c c2 v hne r

theorem to_numeric_isNumOrNa (v : Val) : isNumOrNa (to_numeric v) := by
  cases v with
  | na => exact Or.inl rfl
  | num q => exact Or.inr ⟨q, rfl⟩
  | str s =>
    simp only [to_numeric]
    cases hp : parseDecimal s with
    | some q => exact Or.inr ⟨q, rfl⟩
    | none => exact Or.inl rfl

end Cells

section FetchClaims

/-- C6: if the first page is `[{}, []]` — a well-formed two-element response
with empty metadata (so `pages` defaults to 1) and no records — the loop
stops after that single page regardless of the remaining fuel or of what
later pages would return, and the extraction yields an empty raw list and an
empty frame; and whenever a page response is a list of fewer than two
elements, the loop returns exactly what was accumulated so far. The model is
total, so no exception is raised on either path. -/
theorem extract_empty_meta_stops :
    (∀ (api : Nat → PyVal) (fuel : Nat),
        api 1 = PyVal.plist [PyVal.pdict [], PyVal.plist []] →
        extract_worldbank_indicator api (fuel + 1) = ([], ⟨[], []⟩)) ∧
    (∀ (api : Nat → PyVal) (fuel page : Nat) (accFull : List PyVal) (accFlat : List Row)
        (l : List PyVal),
        api page = PyVal.plist l → l.length < 2 →
        extractLoop api (fuel + 1) page accFull accFlat = (accFull, accFlat)) := by
  constructor
  · intro api fuel h
    unfold extract_worldbank_indicator
    have hloop : extractLoop api (fuel + 1) 1 [] [] = ([], []) := by
      unfold extractLoop
      rw [h]
      rfl
    rw [hloop]
    rfl
  · intro api fuel page accFull accFlat l hapi hlen
    unfold extractLoop
    simp only [hapi]
    rw [if_pos hlen]

/-- Witness for C6 at the constant api returning `[{}, []]`. -/
theorem extract_empty_meta_stops_witness :
    extract_worldbank_indicator
        (fun _ => PyVal.plist [PyVal.pdict [], PyVal.plist []]) 1
      = ([], ⟨[], []⟩) :=
  extract_empty_meta_stops.1 (fun _ => PyVal.plist [PyVal.pdict [], PyVal.plist []]) 0 rfl

theorem extractLoop_full_mem :
    ∀ (fuel page : Nat) (api : Nat → PyVal) (accFull : List PyVal) (accFlat : List Row),
      ∀ r ∈ (extractLoop api fuel page accFull accFlat).1,
        r ∈ accFull ∨ ∃ p l, api p = PyVal.plist l ∧ r ∈ recordsOf (l.getD 1 PyVal.pnull)
  | 0, _, _, _, _, r, hr => Or.inl hr
  | fuel + 1, page, api, accFull, accFlat, r, hr => by
    unfold extractLoop at hr
    cases hd : api page with
    | plist l =>
      simp only [hd] at hr
      by_cases hlen : l.length < 2
      · rw [if_pos hlen] at hr
        exact Or.inl hr
      · rw [if_neg hlen] at hr
        by_cases hdone : pageDone page (pagesOf (l.headD PyVal.pnull)) = true
        · rw [if_pos hdone] at hr
          rcases List.mem_append.mp hr with h | h
          · exact Or.inl h
          · exact Or.inr ⟨page, l, hd, h⟩
        · rw [if_neg hdone] at hr
          rcases extractLoop_full_mem fuel (page + 1) api _ _ r hr with h | h
          · rcases List.mem_append.mp h with h2 | h2
            · exact Or.inl h2
            · exact Or.inr ⟨page, l, hd, h2⟩
          · exact Or.inr h
    | pnull => rw [hd] at hr; exact Or.inl hr
    | pnum q => rw [hd] at hr; exact Or.inl hr
    | pstr st => rw [hd] at hr; exact Or.inl hr
    | pdict kvs => rw [hd] at hr; exact Or.inl hr

/-- C7: in the frame returned by `extract_worldbank_indicator`, every row
has a non-missing iso3 and country name (rows lacking either are dropped),
and the year and value cells are numeric or missing — a string that fails
numeric parsing has been coerced to missing, never an error. The raw list is
the loop's accumulation, returned untouched by the cleaning: each of its
elements is literally a record of some page response. -/
theorem extract_flat_table_clean (api : Nat → PyVal) (fuel : Nat) :
    (∀ row ∈ (extract_worldbank_indicator api fuel).2.rows,
        rowGet row "iso3" ≠ Val.na ∧ rowGet row "country_name" ≠ Val.na ∧
        isNumOrNa (rowGet row "year") ∧ isNumOrNa (rowGet row "value")) ∧
    (extract_worldbank_indicator api fuel).1 = (extractLoop api fuel 1 [] []).1 ∧
    (∀ r ∈ (extract_worldbank_indicator api fuel).1,
        ∃ p l, api p = PyVal.plist l ∧ r ∈ recordsOf (l.getD 1 PyVal.pnull)) := by
  have hfull : (extract_worldbank_indicator api fuel).1 = (extractLoop api fuel 1 [] []).1 := by
    simp only [extract_worldbank_indicator]
    split_ifs <;> rfl
  refine ⟨?_, hfull, ?_⟩
  · intro row hrow
    unfold extract_worldbank_indicator at hrow
    by_cases hE : dfEmpty (mkDF (extractLoop api fuel 1 [] []).2) = true
    · rw [if_neg (by simp [hE])] at hrow
      unfold mkDF at hE hrow
      unfold dfEmpty at hE
      rcases Bool.or_eq_true_iff.mp hE with h | h
      · rw [List.isEmpty_iff.mp h] at hrow
        cases hrow
      · by_cases hfl : (extractLoop api fuel 1 [] []).2.isEmpty = true
        · rw [List.isEmpty_iff.mp hfl] at hrow
          cases hrow
        · rw [if_neg hfl] at h
          simp [wbCols] at h
    · rw [if_pos (by simp [hE])] at hrow
      unfold dropna at hrow
      simp only [List.mem_filter] at hrow
      obtain ⟨hmem, hpred⟩ := hrow
      have hiso : (rowGet row "iso3").isNa = false := by
        have := List.all_eq_true.mp hpred "iso3" (by decide)
        simpa using this
      have hcn : (rowGet row "country_name").isNa = false := by
        have := List.all_eq_true.mp hpred "country_name" (by decide)
        simpa using this
      unfold toNumericCol setCol at hmem
      simp only [List.mem_map] at hmem
      obtain ⟨r1, hr1, hrow⟩ := hmem
      obtain ⟨r0, hr0, hr1eq⟩ := hr1
      subst hrow
      refine ⟨?_, ?_, ?_, ?_⟩
      · intro hx; rw [hx] at hiso; cases hiso
      · intro hx; rw [hx] at hcn; cases hcn
      · rw [rowGet_setCell_ne _ _ _ _ (by decide), ← hr1eq, rowGet_setCell_self]
        exact to_numeric_isNumOrNa _
      · rw [rowGet_setCell_self]
        exact to_numeric_isNumOrNa _
  · intro r hr
    rw [hfull] at hr
    rcases extractLoop_full_mem fuel 1 api [] [] r hr with h | h
    · cases h
    · exact h

end FetchClaims

/-- Witness for C7: a one-page response with an unparseable year string; the
flattened row keeps a missing year and a parsed numeric value. -/
theorem extract_flat_table_clean_witness :
    rowGet [("country_name", Val.str "Aruba"), ("iso3", Val.str "ABW"), ("year", Val.na),
        ("indicator", Val.str "I"), ("value", Val.num 5)] "iso3" ≠ Val.na ∧
    rowGet [("country_name", Val.str "Aruba"), ("iso3", Val.str "ABW"), ("year", Val.na),
        ("indicator", Val.str "I"), ("value", Val.num 5)] "country_name" ≠ Val.na ∧
    isNumOrNa (rowGet [("country_name", Val.str "Aruba"), ("iso3", Val.str "ABW"),
        ("year", Val.na), ("indicator", Val.str "I"), ("value", Val.num 5)] "year") ∧
    isNumOrNa (rowGet [("country_name", Val.str "Aruba"), ("iso3", Val.str "ABW"),
        ("year", Val.na), ("indicator", Val.str "I"), ("value", Val.num 5)] "value") :=
  (extract_flat_table_clean
      (fun _ => PyVal.plist [PyVal.pdict [("pages", PyVal.pnum 1)],
        PyVal.plist [PyVal.pdict [("country", PyVal.pdict [("value", PyVal.pstr "Aruba")]),
          ("countryiso3code", PyVal.pstr "ABW"), ("date", PyVal.pstr "bad"),
          ("indicator", PyVal.pdict [("id", PyVal.pstr "I")]),
          ("value", PyVal.pstr "5")]]])
      1).1
    [("country_name", Val.str "Aruba"), ("iso3", Val.str "ABW"), ("year", Val.na),
     ("indicator", Val.str "I"), ("value", Val.num 5)]
    (by decide)

section HeapClaims

theorem hget_cons_succ (d : DataFrame) (hs : Heap) (r : Nat) :
    hget (d :: hs) (r + 1) = hget hs r := by
  unfold hget
  simp [List.getD]

theorem hget_cons_zero (d : DataFrame) (hs : Heap) : hget (d :: hs) 0 = d := by
  unfold hget
  simp [List.getD]

theorem hget_append_left : ∀ (h t : Heap) (r : Nat), r < h.length → hget (h ++ t) r = hget h r
  | [], _, r, hr => absurd hr (by simp)
  | d :: hs, t, 0, _ => by
    simp only [List.cons_append]
    rw [hget_cons_zero, hget_cons_zero]
  | d :: hs, t, r + 1, hr => by
    simp only [List.cons_append]
    rw [hget_cons_succ, hget_cons_succ]
    exact hget_append_left hs t r (by simpa using hr)

theorem hget_set_ne : ∀ (h : Heap) (j : Nat) (d : DataFrame) (r : Nat), r ≠ j →
    hget (hset h j d) r = hget h r
  | [], _, _, _, _ => rfl
  | x :: hs, 0, d, 0, hne => absurd rfl hne
  | x :: hs, 0, d, r + 1, _ => by
    show hget (d :: hs) (r + 1) = hget (x :: hs) (r + 1)
    rw [hget_cons_succ, hget_cons_succ]
  | x :: hs, j + 1, d, 0, _ => by
    show hget (x :: hset hs j d) 0 = hget (x :: hs) 0
    rw [hget_cons_zero, hget_cons_zero]
  | x :: hs, j + 1, d, r + 1, hne => by
    show hget (x :: hset hs j d) (r + 1) = hget (x :: hs) (r + 1)
    rw [hget_cons_succ, hget_cons_succ]
    exact hget_set_ne hs j d r (fun hx => hne (by rw [hx]))

theorem length_hset (h : Heap) (j : Nat) (d : DataFrame) : (hset h j d).length = h.length := by
  unfold hset
  exact List.length_set h j d

end HeapClaims

/-- C10: neither cleaner mutates its argument. Run over the explicit object
heap, every write of `clean_countries_csv` and `clean_worldbank_df` lands on
a freshly allocated frame (`rename`/`.copy()` results), so the frame the
argument reference points to is unchanged after the call. -/
theorem cleaners_do_not_mutate :
    (∀ (h : Heap) (r : Nat), r < h.length →
        hget (clean_countries_csv_prog h r).1 r = hget h r) ∧
    (∀ (h : Heap) (r : Nat), r < h.length →
        hget (clean_worldbank_df_prog h r).1 r = hget h r) := by
  constructor
  · intro h r hr
    unfold clean_countries_csv_prog
    by_cases hE : dfEmpty (hget h r) = true
    · rw [if_pos hE]
    · rw [if_neg hE]
      simp only [halloc, hSetCol]
      have hj : r ≠ (h ++ [renameCols (hget h r) (standardize_colnames (hget h r).cols)]).length := by
        simp only [List.length_append, List.length_cons, List.length_nil]
        omega
      have hr1 : r < (h ++ [renameCols (hget h r) (standardize_colnames (hget h r).cols)]).length := by
        simp only [List.length_append, List.length_cons, List.length_nil]
        omega
      split_ifs with hc1 hc2
      · rw [hget_set_ne _ _ _ _ hj, hget_set_ne _ _ _ _ hj, hget_set_ne _ _ _ _ hj,
          hget_append_left _ _ _ hr1, hget_append_left _ _ _ hr]
      · rw [hget_set_ne _ _ _ _ hj, hget_set_ne _ _ _ _ hj,
          hget_append_left _ _ _ hr1, hget_append_left _ _ _ hr]
      · rw [hget_set_ne _ _ _ _ hj, hget_set_ne _ _ _ _ hj,
          hget_append_left _ _ _ hr1, hget_append_left _ _ _ hr]
      · rw [hget_set_ne _ _ _ _ hj,
          hget_append_left _ _ _ hr1, hget_append_left _ _ _ hr]
  · intro h r hr
    unfold clean_worldbank_df_prog
    by_cases hE : dfEmpty (hget h r) = true
    · rw [if_pos hE]
    · rw [if_neg hE]
      simp only [halloc, hSetCol]
      have key : ∀ (X : Heap), X.length = h.length + 1 →
          (∀ i, i < h.length → hget X i = hget h i) →
          ∀ (s d4 g : DataFrame),
            hget (X ++ [s] ++ [d4] ++ [g]) r = hget h r := by
        intro X hlen hpt s d4 g
        have l2 : r < (X ++ [s] ++ [d4]).length := by
          simp only [List.length_append, List.length_cons, List.length_nil, hlen]
          omega
        have l1 : r < (X ++ [s]).length := by
          simp only [List.length_append, List.length_cons, List.length_nil, hlen]
          omega
        have l3 : r < X.length := by omega
        rw [hget_append_left _ _ _ l2, hget_append_left _ _ _ l1, hget_append_left _ _ _ l3]
        exact hpt r hr
      apply key
      · simp only [length_hset, List.length_append, List.length_cons, List.length_nil]
      · intro i hi
        have hij : i ≠ h.length := by omega
        rw [hget_set_ne _ _ _ _ hij, hget_set_ne _ _ _ _ hij, hget_set_ne _ _ _ _ hij,
          hget_append_left _ _ _ hi]

/-- Witness for C10 on one-frame heaps. -/
theorem cleaners_do_not_mutate_witness :
    hget (clean_countries_csv_prog [⟨["name"], [[("name", Val.str "Laos")]]⟩] 0).1 0
        = hget [⟨["name"], [[("name", Val.str "Laos")]]⟩] 0 ∧
    hget (clean_worldbank_df_prog
          [⟨["country_name", "iso3", "year", "indicator", "value"],
            [[("country_name", Val.str "Aruba"), ("iso3", Val.str "ABW"), ("year", Val.num 2020),
              ("indicator", Val.str "I"), ("value", Val.num 5)]]⟩] 0).1 0
        = hget [⟨["country_name", "iso3", "year", "indicator", "value"],
            [[("country_name", Val.str "Aruba"), ("iso3", Val.str "ABW"), ("year", Val.num 2020),
              ("indicator", Val.str "I"), ("value", Val.num 5)]]⟩] 0 :=
  ⟨cleaners_do_not_mutate.1 [⟨["name"], [[("name", Val.str "Laos")]]⟩] 0 (by decide),
   cleaners_do_not_mutate.2
     [⟨["country_name", "iso3", "year", "indicator", "value"],
       [[("country_name", Val.str "Aruba"), ("iso3", Val.str "ABW"), ("year", Val.num 2020),
         ("indicator", Val.str "I"), ("value", Val.num 5)]]⟩] 0 (by decide)⟩

section LatestPerIso3

theorem isNa_false_iff (v : Val) : v.isNa = false ↔ v ≠ Val.na := by
  cases v <;> simp [Val.isNa]

theorem yearLE_refl_of_isNumOrNa (a : Val) (h : isNumOrNa a) : yearLE a a := by
  rcases h with h | ⟨q, h⟩
  · exact Or.inl h
  · exact Or.inr ⟨q, q, h, h, le_refl q⟩

theorem yearLE_of_keyCmp_desc (y0 y2 : Val) (h0 : isNumOrNa y0)
    (h : ¬ keyCmp false y0 y2 = Ordering.gt) : yearLE y2 y0 := by
  rcases h0 with h0 | ⟨p, h0⟩ <;> subst h0
  · cases y2 with
    | na => exact Or.inl rfl
    | str s => exact absurd rfl h
    | num q => exact absurd rfl h
  · cases y2 with
    | na => exact Or.inl rfl
    | str s => exact absurd rfl h
    | num q =>
      refine Or.inr ⟨q, p, rfl, rfl, ?_⟩
      simp only [keyCmp] at h
      rw [if_neg (by decide)] at h
      simp only [linCmp] at h
      by_cases hlt : q < p
      · exact le_of_lt hlt
      · rw [if_neg hlt] at h
        by_cases hgt : p < q
        · rw [if_pos hgt] at h
          exact absurd rfl h
        · exact le_of_not_lt hgt

theorem rowGet_T_iso3 (r : Row) (vI vC vN : Val) :
    rowGet (setCell (setCell (setCell r "iso3" vI) "country_name" vC) "_country_norm" vN)
      "iso3" = vI := by
  rw [rowGet_setCell_ne _ _ _ _ (by decide), rowGet_setCell_ne _ _ _ _ (by decide),
    rowGet_setCell_self]

theorem rowGet_T_year (r : Row) (vI vC vN : Val) :
    rowGet (setCell (setCell (setCell r "iso3" vI) "country_name" vC) "_country_norm" vN)
      "year" = rowGet r "year" := by
  rw [rowGet_setCell_ne _ _ _ _ (by decide), rowGet_setCell_ne _ _ _ _ (by decide),
    rowGet_setCell_ne _ _ _ _ (by decide)]

theorem rowGet_T_value (r : Row) (vI vC vN : Val) :
    rowGet (setCell (setCell (setCell r "iso3" vI) "country_name" vC) "_country_norm" vN)
      "value" = rowGet r "value" := by
  rw [rowGet_setCell_ne _ _ _ _ (by decide), rowGet_setCell_ne _ _ _ _ (by decide),
    rowGet_setCell_ne _ _ _ _ (by decide)]

theorem firstNonNa_head (c : String) (r : Row) (rs : List Row)
    (hr : (rowGet r c).isNa = false) :
    firstNonNa (r :: rs) c = rowGet r c := by
  unfold firstNonNa
  simp only [List.map_cons, List.find?_cons, hr]
  rfl

end LatestPerIso3

/-- C2 (counterexample): `groupby(...).first()` takes, per column
independently, the first non-missing value of the group, so the cleaned row
can be a chimera of two input rows. Two rows for iso3 AAA — year 2020 with
missing indicator and value 5, year 2010 with indicator "IND" and value 7 —
clean into a single row (AAA, 2020, 5, "IND") that equals neither input row:
the unique most-recent-year row has a missing indicator, yet the output
carries "IND" from the older row. -/
theorem clean_worldbank_latest_cex :
    (clean_worldbank_df
        ⟨["country_name", "iso3", "year", "indicator", "value"],
         [[("country_name", Val.str "C"), ("iso3", Val.str "AAA"), ("year", Val.num 2020),
           ("indicator", Val.na), ("value", Val.num 5)],
          [("country_name", Val.str "C"), ("iso3", Val.str "AAA"), ("year", Val.num 2010),
           ("indicator", Val.str "IND"), ("value", Val.num 7)]]⟩).rows.map
      (fun r => (rowGet r "iso3", rowGet r "year", rowGet r "value", rowGet r "indicator"))
      = [(Val.str "AAA", Val.num 2020, Val.num 5, Val.str "IND")] ∧
    (∀ r ∈ ([[("country_name", Val.str "C"), ("iso3", Val.str "AAA"), ("year", Val.num 2020),
           ("indicator", Val.na), ("value", Val.num 5)],
          [("country_name", Val.str "C"), ("iso3", Val.str "AAA"), ("year", Val.num 2010),
           ("indicator", Val.str "IND"), ("value", Val.num 7)]] : List Row),
        ¬ (rowGet r "year" = Val.num 2020 ∧ rowGet r "indicator" = Val.str "IND")) := by
  decide

section LatestHelpers

theorem clean_stage1_forward (df : DataFrame) (x : Row)
    (hx : x ∈ (setCol (setCol (setCol df "iso3" (fun r => normIso3Cell (rowGet r "iso3")))
        "country_name" (fun r => trimCell (rowGet r "country_name")))
        "_country_norm" (fun r => normalize_country_name (rowGet r "country_name"))).rows) :
    ∃ r ∈ df.rows, rowGet x "iso3" = normIso3Cell (rowGet r "iso3") ∧
      rowGet x "year" = rowGet r "year" ∧ rowGet x "value" = rowGet r "value" := by
  simp only [setCol, List.map_map, List.mem_map, Function.comp] at hx
  obtain ⟨r, hr, rfl⟩ := hx
  exact ⟨r, hr, by rw [rowGet_T_iso3], by rw [rowGet_T_year], by rw [rowGet_T_value]⟩

theorem clean_stage1_backward (df : DataFrame) (r : Row) (hr : r ∈ df.rows) :
    ∃ x ∈ (setCol (setCol (setCol df "iso3" (fun r => normIso3Cell (rowGet r "iso3")))
        "country_name" (fun r => trimCell (rowGet r "country_name")))
        "_country_norm" (fun r => normalize_country_name (rowGet r "country_name"))).rows,
      rowGet x "iso3" = normIso3Cell (rowGet r "iso3") ∧
      rowGet x "year" = rowGet r "year" ∧ rowGet x "value" = rowGet r "value" := by
  simp only [setCol, List.map_map, List.mem_map, Function.comp]
  refine ⟨_, ⟨r, hr, rfl⟩, ?_, ?_, ?_⟩
  · rw [rowGet_T_iso3]
  · rw [rowGet_T_year]
  · rw [rowGet_T_value]

theorem clean_stage1_cols (df : DataFrame) (hcols : df.cols = wbCols) :
    (setCol (setCol (setCol df "iso3" (fun r => normIso3Cell (rowGet r "iso3")))
        "country_name" (fun r => trimCell (rowGet r "country_name")))
        "_country_norm" (fun r => normalize_country_name (rowGet r "country_name"))).cols
      = wbCols ++ ["_country_norm"] := by
  simp only [setCol, hcols]
  decide

theorem mem_kept (dfX : DataFrame) (x : Row) :
    x ∈ (dropna (sort_values dfX [("iso3", true), ("year", false)]) ["value"]).rows ↔
      x ∈ dfX.rows ∧ (rowGet x "value").isNa = false := by
  unfold dropna sort_values
  simp only [List.mem_filter, List.mem_insertionSort, List.all_cons, List.all_nil,
    Bool.and_true, Bool.not_eq_true']

theorem kept_pairwise (dfX : DataFrame) :
    List.Pairwise (rowLe [("iso3", true), ("year", false)])
      (dropna (sort_values dfX [("iso3", true), ("year", false)]) ["value"]).rows :=
  List.Pairwise.sublist (List.filter_sublist _)
    (sort_values_sorted dfX [("iso3", true), ("year", false)])

theorem mem_groupbyFirst (dfK : DataFrame) (key : String) (row : Row) :
    row ∈ (groupbyFirst dfK key).rows ↔
      ∃ g ∈ groupKeys dfK.rows key,
        row = (key, g) :: (dfK.cols.filter (fun c => !(c == key))).map
          (fun c => (c, firstNonNa (dfK.rows.filter (fun r => rowGet r key == g)) c)) := by
  unfold groupbyFirst
  simp only [List.mem_map]
  constructor
  · rintro ⟨g, hg, rfl⟩
    exact ⟨g, hg, rfl⟩
  · rintro ⟨g, hg, rfl⟩
    exact ⟨g, hg, rfl⟩

theorem mem_groupKeys (rows : List Row) (key : String) (g : Val) :
    g ∈ groupKeys rows key ↔ (∃ r ∈ rows, rowGet r key = g) ∧ g.isNa = false := by
  unfold groupKeys
  rw [List.mem_dedup, List.mem_insertionSort, List.mem_filter]
  simp only [List.mem_map, Bool.not_eq_true']

theorem grp_ne_nil {rows : List Row} {key : String} {g : Val} (r : Row) (hr : r ∈ rows)
    (hk : rowGet r key = g) :
    rows.filter (fun r => rowGet r key == g) ≠ [] := by
  intro hnil
  have hmem : r ∈ rows.filter (fun r => rowGet r key == g) := by
    rw [List.mem_filter]
    exact ⟨hr, by simp [hk]⟩
  rw [hnil] at hmem
  cases hmem

theorem pairwise_head_rel {R : Row → Row → Prop} :
    ∀ {l : List Row} (hp : List.Pairwise R l) (hne : l ≠ []) (x : Row), x ∈ l →
      x = l.head hne ∨ R (l.head hne) x
  | [], _, hne, _, _ => absurd rfl hne
  | a :: as, hp, _, x, hx => by
    rcases List.mem_cons.mp hx with h | h
    · exact Or.inl h
    · exact Or.inr ((List.pairwise_cons.mp hp).1 x h)

end LatestHelpers

theorem normIso3Cell_isNa (v : Val) : (normIso3Cell v).isNa = false := rfl

/-- C2 (amended): for a non-empty indicator table (columns country_name,
iso3, year, indicator, value; year cells numeric or missing), the cleaned
table has at most one row per ISO3; the row kept for an ISO3 draws its
`value` (and, through the sort, its year) from an input row of that ISO3
with a non-missing value whose year is at least that of every other such
row; and an ISO3 appears in the output exactly when some input row carries
it with a non-missing value. The output row need not equal that input row:
`GroupBy.first` fills every other column with the group's first non-missing
entry, so columns such as `indicator` can come from an older row (see the
counterexample). -/
theorem clean_worldbank_latest (df : DataFrame)
    (hcols : df.cols = wbCols)
    (hne : dfEmpty df = false)
    (hyear : ∀ r ∈ df.rows, isNumOrNa (rowGet r "year")) :
    ((clean_worldbank_df df).rows.map (fun r => rowGet r "iso3")).Nodup ∧
    (∀ row ∈ (clean_worldbank_df df).rows,
      ∃ r ∈ df.rows,
        normIso3Cell (rowGet r "iso3") = rowGet row "iso3" ∧
        rowGet r "value" ≠ Val.na ∧
        rowGet row "value" = rowGet r "value" ∧
        (∀ r2 ∈ df.rows, normIso3Cell (rowGet r2 "iso3") = rowGet row "iso3" →
          rowGet r2 "value" ≠ Val.na → yearLE (rowGet r2 "year") (rowGet r "year"))) ∧
    (∀ g : Val,
      (∃ row ∈ (clean_worldbank_df df).rows, rowGet row "iso3" = g) ↔
      (∃ r ∈ df.rows, normIso3Cell (rowGet r "iso3") = g ∧ rowGet r "value" ≠ Val.na)) := by
  have hclean : clean_worldbank_df df =
      groupbyFirst (dropna (sort_values
        (setCol (setCol (setCol df "iso3" (fun r => normIso3Cell (rowGet r "iso3")))
          "country_name" (fun r => trimCell (rowGet r "country_name")))
          "_country_norm" (fun r => normalize_country_name (rowGet r "country_name")))
        [("iso3", true), ("year", false)]) ["value"]) "iso3" := by
    unfold clean_worldbank_df
    rw [if_neg (by simp [hne])]
  set df1 := setCol (setCol (setCol df "iso3" (fun r => normIso3Cell (rowGet r "iso3")))
      "country_name" (fun r => trimCell (rowGet r "country_name")))
      "_country_norm" (fun r => normalize_country_name (rowGet r "country_name")) with hdf1
  set K := dropna (sort_values df1 [("iso3", true), ("year", false)]) ["value"] with hK
  have hmemK : ∀ x : Row, x ∈ K.rows ↔ x ∈ df1.rows ∧ (rowGet x "value").isNa = false :=
    fun x => mem_kept df1 x
  have hKpair : List.Pairwise (rowLe [("iso3", true), ("year", false)]) K.rows :=
    kept_pairwise df1
  have hKcols : K.cols = wbCols ++ ["_country_norm"] := clean_stage1_cols df hcols
  have hothers : K.cols.filter (fun c => !(c == "iso3"))
      = ["country_name", "year", "indicator", "value", "_country_norm"] := by
    rw [hKcols]
    decide
  rw [hclean]
  refine ⟨groupbyFirst_keys_nodup K "iso3", ?_, ?_⟩
  · intro row hrow
    rw [mem_groupbyFirst, hothers] at hrow
    obtain ⟨g, hg, rfl⟩ := hrow
    obtain ⟨⟨rK, hrKmem, hrKkey⟩, hgna⟩ := (mem_groupKeys K.rows "iso3" g).mp hg
    set grp := K.rows.filter (fun r => rowGet r "iso3" == g) with hgrp
    have hgrpne : grp ≠ [] := grp_ne_nil rK hrKmem hrKkey
    obtain ⟨h0, rest, hgrp2⟩ := List.exists_cons_of_ne_nil hgrpne
    have hh0mem : h0 ∈ grp := by rw [hgrp2]; exact List.mem_cons_self h0 rest
    have hh0K : h0 ∈ K.rows := (List.mem_filter.mp hh0mem).1
    have hh0key : rowGet h0 "iso3" = g := by
      have := (List.mem_filter.mp hh0mem).2
      simpa using this
    have hh0val : (rowGet h0 "value").isNa = false := ((hmemK h0).mp hh0K).2
    obtain ⟨r0, hr0, hr0i, hr0y, hr0v⟩ := clean_stage1_forward df h0 ((hmemK h0).mp hh0K).1
    have hrowi : rowGet (("iso3", g) :: (["country_name", "year", "indicator", "value",
        "_country_norm"] : List String).map
        (fun c => (c, firstNonNa grp c)) : Row) "iso3" = g := by
      simp [rowGet]
    have hrowv : rowGet (("iso3", g) :: (["country_name", "year", "indicator", "value",
        "_country_norm"] : List String).map
        (fun c => (c, firstNonNa grp c)) : Row) "value" = firstNonNa grp "value" := by
      simp [rowGet]
    have hfirst : firstNonNa grp "value" = rowGet h0 "value" := by
      rw [hgrp2]
      exact firstNonNa_head "value" h0 rest hh0val
    rw [hrowi, hrowv]
    refine ⟨r0, hr0, ?_, ?_, ?_, ?_⟩
    · rw [← hr0i, hh0key]
    · rw [← hr0v]
      exact (isNa_false_iff _).mp hh0val
    · rw [hfirst, hr0v]
    · intro r2 hr2 hr2key hr2val
      obtain ⟨x2, hx2mem, hx2i, hx2y, hx2v⟩ := clean_stage1_backward df r2 hr2
      have hx2K : x2 ∈ K.rows := (hmemK x2).mpr ⟨hx2mem, by
        rw [hx2v]
        exact (isNa_false_iff _).mpr hr2val⟩
      have hx2key : rowGet x2 "iso3" = g := by rw [hx2i, hr2key]
      have hx2grp : x2 ∈ grp := by
        rw [hgrp]
        rw [List.mem_filter]
        exact ⟨hx2K, by simp [hx2key]⟩
      have hy0 : isNumOrNa (rowGet h0 "year") := by
        rw [hr0y]
        exact hyear r0 hr0
      rw [← hx2y, ← hr0y]
      rw [hgrp2] at hx2grp
      rcases List.mem_cons.mp hx2grp with hx2e | hx2tail
      · rw [hx2e]
        exact yearLE_refl_of_isNumOrNa _ hy0
      · have hgrppair : List.Pairwise (rowLe [("iso3", true), ("year", false)]) grp :=
          List.Pairwise.sublist (List.filter_sublist _) hKpair
        rw [hgrp2] at hgrppair
        have hle : rowLe [("iso3", true), ("year", false)] h0 x2 :=
          (List.pairwise_cons.mp hgrppair).1 x2 hx2tail
        unfold rowLe at hle
        have hkeyeq : keyCmp true (rowGet h0 "iso3") (rowGet x2 "iso3") = Ordering.eq :=
          (keyCmp_eq_iff true _ _).mpr (by rw [hh0key, hx2key])
        simp only [rowCmp, hkeyeq] at hle
        apply yearLE_of_keyCmp_desc _ _ hy0
        intro hgt
        rw [hgt] at hle
        exact hle rfl
  · intro g
    constructor
    · rintro ⟨row, hrow, hkeyg⟩
      rw [mem_groupbyFirst, hothers] at hrow
      obtain ⟨g2, hg2, rfl⟩ := hrow
      have hrowi : rowGet (("iso3", g2) :: (["country_name", "year", "indicator", "value",
          "_country_norm"] : List String).map
          (fun c => (c, firstNonNa (K.rows.filter (fun r => rowGet r "iso3" == g2)) c)) : Row)
          "iso3" = g2 := by
        simp [rowGet]
      rw [hrowi] at hkeyg
      rw [← hkeyg]
      obtain ⟨⟨rK, hrKmem, hrKkey⟩, hgna⟩ := (mem_groupKeys K.rows "iso3" g2).mp hg2
      obtain ⟨r0, hr0, hr0i, hr0y, hr0v⟩ :=
        clean_stage1_forward df rK ((hmemK rK).mp hrKmem).1
      refine ⟨r0, hr0, ?_, ?_⟩
      · rw [← hr0i, hrKkey]
      · have := ((hmemK rK).mp hrKmem).2
        rw [hr0v] at this
        exact (isNa_false_iff _).mp this
    · rintro ⟨r, hr, hrkey, hrval⟩
      obtain ⟨x, hxmem, hxi, hxy, hxv⟩ := clean_stage1_backward df r hr
      have hxK : x ∈ K.rows := (hmemK x).mpr ⟨hxmem, by
        rw [hxv]
        exact (isNa_false_iff _).mpr hrval⟩
      have hxkey : rowGet x "iso3" = g := by rw [hxi, hrkey]
      have hgk : g ∈ groupKeys K.rows "iso3" := by
        rw [mem_groupKeys]
        refine ⟨⟨x, hxK, hxkey⟩, ?_⟩
        rw [← hrkey]
        exact normIso3Cell_isNa _
      refine ⟨("iso3", g) :: (K.cols.filter (fun c => !(c == "iso3"))).map
          (fun c => (c, firstNonNa (K.rows.filter (fun r => rowGet r "iso3" == g)) c)), ?_, ?_⟩
      · rw [mem_groupbyFirst]
        exact ⟨g, hgk, rfl⟩
      · simp [rowGet]

/-- Witness for the amended C2 on a one-row indicator table. -/
theorem clean_worldbank_latest_witness :
    ((clean_worldbank_df ⟨wbCols,
        [[("country_name", Val.str "Aruba"), ("iso3", Val.str "ABW"), ("year", Val.num 2020),
          ("indicator", Val.str "I"), ("value", Val.num 5)]]⟩).rows.map
      (fun r => rowGet r "iso3")).Nodup ∧
    (∀ row ∈ (clean_worldbank_df ⟨wbCols,
        [[("country_name", Val.str "Aruba"), ("iso3", Val.str "ABW"), ("year", Val.num 2020),
          ("indicator", Val.str "I"), ("value", Val.num 5)]]⟩).rows,
      ∃ r ∈ ([[("country_name", Val.str "Aruba"), ("iso3", Val.str "ABW"),
          ("year", Val.num 2020), ("indicator", Val.str "I"), ("value", Val.num 5)]] : List Row),
        normIso3Cell (rowGet r "iso3") = rowGet row "iso3" ∧
        rowGet r "value" ≠ Val.na ∧
        rowGet row "value" = rowGet r "value" ∧
        (∀ r2 ∈ ([[("country_name", Val.str "Aruba"), ("iso3", Val.str "ABW"),
            ("year", Val.num 2020), ("indicator", Val.str "I"), ("value", Val.num 5)]] : List Row),
          normIso3Cell (rowGet r2 "iso3") = rowGet row "iso3" →
          rowGet r2 "value" ≠ Val.na → yearLE (rowGet r2 "year") (rowGet r "year"))) ∧
    (∀ g : Val,
      (∃ row ∈ (clean_worldbank_df ⟨wbCols,
          [[("country_name", Val.str "Aruba"), ("iso3", Val.str "ABW"), ("year", Val.num 2020),
            ("indicator", Val.str "I"), ("value", Val.num 5)]]⟩).rows,
        rowGet row "iso3" = g) ↔
      (∃ r ∈ ([[("country_name", Val.str "Aruba"), ("iso3", Val.str "ABW"),
          ("year", Val.num 2020), ("indicator", Val.str "I"), ("value", Val.num 5)]] : List Row),
        normIso3Cell (rowGet r "iso3") = g ∧ rowGet r "value" ≠ Val.na)) :=
  clean_worldbank_latest
    ⟨wbCols,
      [[("country_name", Val.str "Aruba"), ("iso3", Val.str "ABW"), ("year", Val.num 2020),
        ("indicator", Val.str "I"), ("value", Val.num 5)]]⟩
    rfl rfl
    (by
      intro r hr
      rw [List.mem_singleton] at hr
      subst hr
      exact Or.inr ⟨2020, rfl⟩)
